import Mathlib

/-!
Verification development for the Nova real-estate intake pipeline.

We shallowly embed the Python core of the repository:
* `src/models/data_processor.py` (cell canonicalization, `normalize_dataframe`),
* `src/models/validators.py` (`ExcelValidator.validate_dataframe`),
* `src/google_sheets/sheets.py` (the reconciler `update_sheet_with_excel`,
  `_get_or_create_headers`, `_delete_rows_batch`),
* `src/feed/feed_generator.py` (`XMLFeedGenerator.generate_feed`, `_add_offer`).

Cell values are modelled by an inductive `Value` covering the Python types the
pipeline handles (None, NaN, bool, int, decimal floats, strings, datetimes).
Floats are modelled as exact decimals `m / 10^e`, which is faithful for the
spreadsheet data the code consumes.  Fallible Python code (KeyError,
ValueError, network errors) is modelled with `Except String`.
-/

namespace Nova

/-- A Python cell value as seen by the pipeline.  `float m e` denotes the
decimal value `m / 10 ^ e`; `datetime` carries broken-down components. -/
inductive Value where
  | none : Value
  | nan : Value
  | bool : Bool → Value
  | int : Int → Value
  | float : Int → Nat → Value
  | str : String → Value
  | datetime : Nat → Nat → Nat → Nat → Nat → Nat → Value
deriving DecidableEq, Repr

/-- `pd.isna` on a scalar: true exactly for `None` and `NaN`. -/
def isna : Value → Bool
  | .none => true
  | .nan => true
  | _ => false

/-- Python `str.isspace`-style whitespace recognized by `str.strip()`. -/
def pyIsSpace (c : Char) : Bool :=
  c = ' ' || c = '\t' || c = '\n' || c = '\r' || c = '\x0b' || c = '\x0c'

/-- Python `str.strip()` on a list of characters. -/
def pyStripL (l : List Char) : List Char :=
  ((l.dropWhile pyIsSpace).reverse.dropWhile pyIsSpace).reverse

/-- Python `str.strip()`. -/
def pyStrip (s : String) : String :=
  String.mk (pyStripL s.data)

/-- Strip trailing decimal zeros of `m / 10^e` (Python float canonical form). -/
def decNorm : Int → Nat → Int × Nat
  | m, 0 => (m, 0)
  | m, e + 1 => if m % 10 = 0 then decNorm (m / 10) e else (m, e + 1)

/-- Zero-padded two-digit rendering (`%02d`). -/
def pad2 (n : Nat) : String :=
  if n < 10 then "0" ++ toString n else toString n

/-- Zero-padded four-digit year rendering (`%04d`). -/
def pad4 (n : Nat) : String :=
  if n < 10 then "000" ++ toString n
  else if n < 100 then "00" ++ toString n
  else if n < 1000 then "0" ++ toString n
  else toString n

/-- `datetime.isoformat()`: `YYYY-MM-DDTHH:MM:SS`. -/
def dtIso (y mo d h mi s : Nat) : String :=
  pad4 y ++ "-" ++ pad2 mo ++ "-" ++ pad2 d ++ "T" ++ pad2 h ++ ":" ++ pad2 mi ++ ":" ++ pad2 s

/-- `str(datetime)`: `YYYY-MM-DD HH:MM:SS` (isoformat with a space). -/
def dtSpace (y mo d h mi s : Nat) : String :=
  pad4 y ++ "-" ++ pad2 mo ++ "-" ++ pad2 d ++ " " ++ pad2 h ++ ":" ++ pad2 mi ++ ":" ++ pad2 s

/-- `str(float)` for the decimal `m / 10^e`: canonical form with at least one
fractional digit (`2.0`, `2.5`, `0.05`, `-3.25`). -/
def pyFloatStr (m : Int) (e : Nat) : String :=
  let p := decNorm m e
  if p.2 = 0 then toString p.1 ++ ".0"
  else
    let a := p.1.natAbs
    let ds := Nat.toDigits 10 a
    let ds2 := if ds.length ≤ p.2 then List.replicate (p.2 + 1 - ds.length) '0' ++ ds else ds
    (if p.1 < 0 then "-" else "") ++ String.mk (ds2.take (ds2.length - p.2))
      ++ "." ++ String.mk (ds2.drop (ds2.length - p.2))

/-- Python `str(value)` — the elementwise effect of pandas `.astype(str)`. -/
def pyStr : Value → String
  | .none => "None"
  | .nan => "nan"
  | .bool b => if b then "True" else "False"
  | .int n => toString n
  | .float m e => pyFloatStr m e
  | .str s => s
  | .datetime y mo d h mi s => dtSpace y mo d h mi s

/-- `DataProcessor.safe_str` (src/models/data_processor.py lines 9-24):
null/NaN → `''`; bool → `'1'`/`'0'`; integral numbers → integer string;
other floats → decimal string; datetimes → ISO-8601; strings → stripped. -/
def safe_str : Value → String
  | .none => ""
  | .nan => ""
  | .bool b => if b then "1" else "0"
  | .int n => toString n
  | .float m e => if (decNorm m e).2 = 0 then toString (decNorm m e).1 else pyFloatStr m e
  | .datetime y mo d h mi s => dtIso y mo d h mi s
  | .str s => pyStrip s

/-- The per-cell effect of `DataProcessor.normalize_dataframe` (line 34):
`astype(str)` followed by `safe_str`. -/
def normalizeCell (v : Value) : String :=
  safe_str (Value.str (pyStr v))

/-- A pandas DataFrame: a list of column names and rectangular rows. -/
structure Df where
  cols : List String
  data : List (List Value)
deriving DecidableEq, Repr

/-- Rows are rectangular: each row has one cell per column. -/
def Df.Aligned (df : Df) : Prop :=
  ∀ r ∈ df.data, r.length = df.cols.length

instance (df : Df) : Decidable df.Aligned :=
  inferInstanceAs (Decidable (∀ r ∈ df.data, r.length = df.cols.length))

/-- Python `list.index` / first occurrence, `Option.none` when absent. -/
def listIndex (a : String) : List String → Option Nat
  | [] => Option.none
  | b :: t => if b = a then some 0 else (listIndex a t).map (· + 1)

/-- `Series.get(c, dflt)` on a row aligned with `cols`. -/
def rowCell (cols : List String) (r : List Value) (c : String) (dflt : Value) : Value :=
  match listIndex c cols with
  | some i => r.getD i dflt
  | Option.none => dflt

/-- `DataProcessor.normalize_dataframe` (src/models/data_processor.py lines
26-40): maps every cell through `astype(str)` + `safe_str`, then inserts the
`developer_telegram_id` and `creation_date` columns at the front.  `insert`
raises when the column already exists. -/
def normalize_dataframe (df : Df) (developer_id : String) (nowIso : String) : Except String Df :=
  let d1 : Df := ⟨df.cols, df.data.map (fun r => r.map (fun v => Value.str (normalizeCell v)))⟩
  if d1.cols.contains "developer_telegram_id" then
    .error "cannot insert developer_telegram_id, already exists"
  else if d1.cols.contains "creation_date" then
    .error "cannot insert creation_date, already exists"
  else
    .ok ⟨"developer_telegram_id" :: "creation_date" :: d1.cols,
         d1.data.map (fun r => Value.str developer_id :: Value.str nowIso :: r)⟩

/-! ### The validator (src/models/validators.py) -/

/-- Declared column types of `ExcelValidator`. -/
inductive PyType where
  | pstr | pfloat | pint | pbool
deriving DecidableEq, Repr

/-- Python rendering of a type object, as interpolated into error messages. -/
def pyTypeName : PyType → String
  | .pstr => "<class \x27str\x27>"
  | .pfloat => "<class \x27float\x27>"
  | .pint => "<class \x27int\x27>"
  | .pbool => "<class \x27bool\x27>"

/-- `ExcelValidator.REQUIRED_COLUMNS`. -/
def REQUIRED_COLUMNS : List (String × PyType) :=
  [("internal_id", .pstr), ("address", .pstr), ("price", .pfloat), ("area_total", .pfloat)]

/-- `ExcelValidator.OPTIONAL_COLUMNS`. -/
def OPTIONAL_COLUMNS : List (String × PyType) :=
  [("property_type", .pstr), ("category", .pstr), ("area_living", .pfloat),
   ("area_kitchen", .pfloat), ("windows_view", .pstr), ("number", .pstr),
   ("description", .pstr), ("floor", .pint), ("floors_total", .pint),
   ("building_name", .pstr), ("built_year", .pint), ("image_urls", .pstr),
   ("ceiling_height", .pfloat), ("renovation_type", .pstr), ("balcony_type", .pstr),
   ("has_parking", .pbool), ("rooms", .pint), ("metro_station", .pstr),
   ("distance_to_metro", .pint), ("mortgage_available", .pbool),
   ("initial_payment", .pfloat), ("construction_type", .pstr),
   ("elevator_count", .pint), ("developer_name", .pstr)]

/-- Column values of `df[c]` (empty when the column is absent; guarded uses only). -/
def colOf (df : Df) (c : String) : List Value :=
  match listIndex c df.cols with
  | some i => df.data.map (fun r => r.getD i Value.nan)
  | Option.none => []

/-- `df[c]` with Python's KeyError on a missing column. -/
def getColE (df : Df) (c : String) : Except String (List Value) :=
  match listIndex c df.cols with
  | some i => .ok (df.data.map (fun r => r.getD i Value.nan))
  | Option.none => .error ("KeyError: \x27" ++ c ++ "\x27")

/-- 0-based positions of elements satisfying `p`, starting at index `i`. -/
def idxWhere (p : Value → Bool) : Nat → List Value → List Nat
  | _, [] => []
  | i, v :: t => if p v then i :: idxWhere p (i + 1) t else idxWhere p (i + 1) t

/-- Python list formatting of row indices, e.g. `[0, 2]`. -/
def pyListNat (l : List Nat) : String :=
  "[" ++ String.intercalate ", " (l.map toString) ++ "]"

/-- Python `repr` of a cell value (as used when a list of values is printed). -/
def pyRepr : Value → String
  | .str s => "\x27" ++ s ++ "\x27"
  | v => pyStr v

/-- Python list formatting of a list of values. -/
def pyListVal (l : List Value) : String :=
  "[" ++ String.intercalate ", " (l.map pyRepr) ++ "]"

/-- `ExcelValidator._validate_required_fields` (lines 68-75). -/
def requiredFieldErrors (df : Df) : List String :=
  (REQUIRED_COLUMNS.map Prod.fst).filterMap (fun c =>
    if df.cols.contains c then
      let nulls := idxWhere isna 0 (colOf df c)
      if nulls.isEmpty then Option.none
      else some ("Пустые значения в обязательной колонке " ++ c ++ " в строках: " ++ pyListNat nulls)
    else some ("Отсутствует обязательная колонка: " ++ c))

/-- Parse a run of decimal digits (at least one). -/
def parseNatDigits (l : List Char) : Option Nat :=
  if l ≠ [] ∧ l.all Char.isDigit then
    some (l.foldl (fun a c => a * 10 + (c.toNat - 48)) 0)
  else Option.none

/-- Python `int(str)`: optional sign, digits; surrounding whitespace stripped. -/
def intParse (s : String) : Option Int :=
  let l := (pyStrip s).data
  match l with
  | '-' :: t => (parseNatDigits t).map (fun n => -(n : Int))
  | '+' :: t => (parseNatDigits t).map (fun n => (n : Int))
  | _ => (parseNatDigits l).map (fun n => (n : Int))

/-- Python `float(str)` for plain decimal literals (`"1"`, `"2.5"`, `".5"`,
`"3."`); returns the decimal pair `(m, e)` with value `m / 10^e`. -/
def floatParse (s : String) : Option (Int × Nat) :=
  let l := (pyStrip s).data
  let core : List Char → Option (Int × Nat) := fun l =>
    match l.span (fun c => c != '.') with
    | (ip, []) => (parseNatDigits ip).map (fun n => ((n : Int), 0))
    | (ip, _dot :: fp) =>
        if ip.all Char.isDigit ∧ fp.all Char.isDigit ∧ (ip ≠ [] ∨ fp ≠ []) then
          some (((ip.foldl (fun a c => a * 10 + (c.toNat - 48)) 0) * 10 ^ fp.length
                 + fp.foldl (fun a c => a * 10 + (c.toNat - 48)) 0 : Nat), fp.length)
        else Option.none
  match l with
  | '-' :: t => (core t).map (fun p => (-p.1, p.2))
  | '+' :: t => core t
  | _ => core l

/-- Truncation toward zero of `m / 10^e` (Python `int(float)` / `astype(int)`). -/
def intTrunc (m : Int) (e : Nat) : Int :=
  (if m < 0 then -1 else 1) * ((m.natAbs / 10 ^ e : Nat) : Int)

/-- Python `str.lower()` (ASCII letters). -/
def pyLower (s : String) : String := String.map Char.toLower s

/-- Elementwise `astype(dtype)` coercion of one non-null cell; `Option.none`
models a raised conversion error. -/
def coerceVal : PyType → Value → Option Value
  | .pstr, v => some (.str (pyStr v))
  | .pfloat, v =>
      match v with
      | .int n => some (.float n 0)
      | .float m e => some (.float m e)
      | .bool b => some (.float (if b then 1 else 0) 0)
      | .str s => (floatParse s).map (fun p => .float p.1 p.2)
      | .nan => some .nan
      | _ => Option.none
  | .pint, v =>
      match v with
      | .int n => some (.int n)
      | .float m e => some (.int (intTrunc m e))
      | .bool b => some (.int (if b then 1 else 0))
      | .str s => (intParse s).map .int
      | _ => Option.none
  | .pbool, _ => Option.none

/-- The boolean token set of line 85: `['true', '1', 'yes', 'да']`. -/
def boolTokens : List String := ["true", "1", "yes", "да"]

/-- Coerce one column in place (`df.loc[mask, col] = ...`, lines 84-87):
null cells are skipped; a failing conversion leaves the column unchanged and
reports an error. -/
def coerceColumn (ty : PyType) (df : Df) (c : String) : Df × Option String :=
  match listIndex c df.cols with
  | Option.none => (df, Option.none)
  | some i =>
      if ty = .pbool then
        (⟨df.cols, df.data.map (fun r =>
            let v := r.getD i Value.nan
            if isna v then r
            else r.set i (.bool (boolTokens.contains (pyLower (pyStr v)))))⟩,
         Option.none)
      else
        let ok := df.data.all (fun r =>
          let v := r.getD i Value.nan
          isna v || (coerceVal ty v).isSome)
        if ok then
          (⟨df.cols, df.data.map (fun r =>
              let v := r.getD i Value.nan
              if isna v then r
              else r.set i ((coerceVal ty v).getD v))⟩,
           Option.none)
        else
          (df, some ("Ошибка в колонке " ++ c ++ ": неверный тип данных, ожидается " ++ pyTypeName ty))

/-- `ExcelValidator._validate_data_types` (lines 77-89): iterate over
`{**REQUIRED_COLUMNS, **OPTIONAL_COLUMNS}` in insertion order, mutating `df`. -/
def dataTypes (df : Df) : Df × List String :=
  (REQUIRED_COLUMNS ++ OPTIONAL_COLUMNS).foldl
    (fun acc p =>
      if acc.1.cols.contains p.1 then
        let r := coerceColumn p.2 acc.1 p.1
        (r.1, acc.2 ++ r.2.toList)
      else acc)
    (df, [])

/-- An exact unnormalized fraction (denominator positive by construction).
Kept gcd-free so that kernel evaluation of the validator is possible. -/
structure QF where
  num : Int
  den : Int
deriving DecidableEq, Repr

def qfOfInt (n : Int) : QF := ⟨n, 1⟩

/-- `a < b` for fractions with positive denominators. -/
def qfLt (a b : QF) : Bool := decide (a.num * b.den < b.num * a.den)

/-- `a ≤ b` for fractions with positive denominators. -/
def qfLe (a b : QF) : Bool := decide (a.num * b.den ≤ b.num * a.den)

def qfAdd (a b : QF) : QF := ⟨a.num * b.den + b.num * a.den, a.den * b.den⟩

def qfSub (a b : QF) : QF := ⟨a.num * b.den - b.num * a.den, a.den * b.den⟩

def qfMul (a b : QF) : QF := ⟨a.num * b.num, a.den * b.den⟩

/-- Numeric view of a cell for pandas comparisons: `Option.none` is NaN;
non-numeric cells raise a TypeError. -/
def toQ : Value → Except String (Option QF)
  | .int n => .ok (some ⟨n, 1⟩)
  | .float m e => .ok (some ⟨m, ((10 : Int) ^ e)⟩)
  | .bool b => .ok (some ⟨if b then 1 else 0, 1⟩)
  | .nan => .ok Option.none
  | .none => .error "TypeError: unsupported comparison with NoneType"
  | .str _ => .error "TypeError: unsupported comparison with str"
  | .datetime _ _ _ _ _ _ => .error "TypeError: unsupported comparison with datetime"

/-- `(series < 0).any()`: NaN compares false. -/
def anyLtZero : List Value → Except String Bool
  | [] => .ok false
  | v :: t => do
      let q ← toQ v
      let rest ← anyLtZero t
      match q with
      | some x => pure (qfLt x (qfOfInt 0) || rest)
      | Option.none => pure rest

/-- Result of a float division: number, NaN, or a signed infinity. -/
inductive DivRes where
  | num : QF → DivRes
  | nanr : DivRes
  | infr : Bool → DivRes
deriving DecidableEq

/-- Pairwise float division with pandas semantics (`x/0 = ±inf`, `0/0 = NaN`). -/
def divQ : Option QF → Option QF → DivRes
  | some p, some a =>
      if a.num = 0 then (if p.num = 0 then .nanr else .infr (0 < p.num))
      else if a.num < 0 then .num ⟨-(p.num * a.den), p.den * (-a.num)⟩
      else .num ⟨p.num * a.den, p.den * a.num⟩
  | _, _ => .nanr

def divLt (d : DivRes) (bound : QF) : Bool :=
  match d with
  | .num q => qfLt q bound
  | .nanr => false
  | .infr pos => !pos

def divGt (d : DivRes) (bound : QF) : Bool :=
  match d with
  | .num q => qfLt bound q
  | .nanr => false
  | .infr pos => pos

/-- `ExcelValidator._validate_numeric_values` (lines 91-117). -/
def numericValues (df : Df) : Except String (List String × List String) := do
  let mut errs : List String := []
  let mut warns : List String := []
  if df.cols.contains "price" then
    let prices := colOf df "price"
    if (← anyLtZero prices) then
      errs := errs ++ ["Найдены отрицательные значения в поле \x27price\x27"]
    if df.cols.contains "area_total" then
      let areas := colOf df "area_total"
      let pq ← prices.mapM toQ
      let aq ← areas.mapM toQ
      let ppm := List.zipWith divQ pq aq
      if ppm.any (fun d => divLt d (qfOfInt 50000)) then
        warns := warns ++ ["Найдены подозрительно низкие цены за квадратный метр"]
      if ppm.any (fun d => divGt d (qfOfInt 1000000)) then
        warns := warns ++ ["Найдены подозрительно высокие цены за квадратный метр"]
  for areaCol in ["area_total", "area_living", "area_kitchen"] do
    if df.cols.contains areaCol then
      if (← anyLtZero (colOf df areaCol)) then
        errs := errs ++ ["Найдены отрицательные значения в поле \x27" ++ areaCol ++ "\x27"]
  if ["area_total", "area_living", "area_kitchen"].all df.cols.contains then
    let tq ← (colOf df "area_total").mapM toQ
    let lq ← (colOf df "area_living").mapM toQ
    let kq ← (colOf df "area_kitchen").mapM toQ
    let triples := List.zipWith (fun t p => (t, p.1, p.2)) tq (List.zipWith Prod.mk lq kq)
    let badIdx := (List.range triples.length).filter (fun i =>
      match triples.getD i (Option.none, Option.none, Option.none) with
      | (t, some l, some k) =>
          match t with
          | some tv => qfLt tv (qfAdd l k)
          | Option.none => false
      | _ => false)
    if !badIdx.isEmpty then
      errs := errs ++ ["Сумма жилой площади и кухни больше общей площади в строках: " ++ pyListNat badIdx]
  return (errs, warns)

/-- Sorted insertion (ascending) for fractions. -/
def insAsc (a : QF) : List QF → List QF
  | [] => [a]
  | b :: t => if qfLe a b then a :: b :: t else b :: insAsc a t

def sortAsc (l : List QF) : List QF := l.foldr insAsc []

/-- pandas `Series.quantile(0.8)`: drop NaN, sort, linear interpolation at
position `0.8 * (n - 1)`; `Option.none` when no numeric values remain. -/
def quantile08 (vals : List (Option QF)) : Option QF :=
  let xs := sortAsc (vals.filterMap id)
  match xs with
  | [] => Option.none
  | _ =>
      let n := xs.length
      let lo : Nat := 4 * (n - 1) / 5
      let frac : QF := ⟨4 * ((n : Int) - 1) - 5 * (lo : Int), 5⟩
      let vlo := xs.getD lo (qfOfInt 0)
      let vhi := xs.getD (lo + 1) vlo
      some (qfAdd vlo (qfMul frac (qfSub vhi vlo)))

/-- `ExcelValidator._validate_business_rules` (lines 119-154). -/
def businessRules (df : Df) : Except String (List String × List String) := do
  let mut errs : List String := []
  let mut warns : List String := []
  if df.cols.contains "price" ∧ df.cols.contains "description" then
    let pq ← (colOf df "price").mapM toQ
    let thr := quantile08 pq
    let descs := colOf df "description"
    let expensive := (List.range pq.length).filter (fun i =>
      (match pq.getD i Option.none, thr with
       | some p, some t => qfLt t p
       | _, _ => false)
      && (let d := descs.getD i Value.nan
          isna d || d == Value.str ""))
    if !expensive.isEmpty then
      warns := warns ++ ["Отсутствует описание для дорогих объектов в строках: " ++ pyListNat expensive]
  if df.cols.contains "image_urls" then
    let urls := colOf df "image_urls"
    for i in List.range urls.length do
      let u := urls.getD i Value.nan
      if !isna u then
        match u with
        | .str s =>
            for url in s.splitOn "," do
              if !((pyStrip url).startsWith "http://" || (pyStrip url).startsWith "https://") then
                warns := warns ++ ["Некорректный URL изображения в строке " ++ toString i ++ ": " ++ url]
        | _ => throw "AttributeError: object has no attribute split"
  if ["property_type", "floor", "floors_total"].all df.cols.contains then
    let ptypes := colOf df "property_type"
    let fq ← (colOf df "floor").mapM toQ
    let ftq ← (colOf df "floors_total").mapM toQ
    let badIdx := (List.range ptypes.length).filter (fun i =>
      (ptypes.getD i Value.nan == Value.str "квартира")
      && (match fq.getD i Option.none, ftq.getD i Option.none with
          | some f, some ft => qfLt ft f
          | _, _ => false))
    if !badIdx.isEmpty then
      errs := errs ++ ["Этаж больше общего количества этажей в строках: " ++ pyListNat badIdx]
  for fld in ["rooms", "renovation_type", "windows_view"] do
    if df.cols.contains fld then
      let empty := idxWhere isna 0 (colOf df fld)
      if !empty.isEmpty then
        warns := warns ++ ["Рекомендуется заполнить поле " ++ fld ++ " в строках: " ++ pyListNat empty]
  return (errs, warns)

/-- Equality used by `df[col] == value`: NaN never equals anything. -/
def pyEq (a b : Value) : Bool :=
  match a, b with
  | .nan, _ => false
  | _, .nan => false
  | x, y => x == y

/-- Values at positions whose earlier positions contain an equal value
(pandas `Series.duplicated()`, which does treat NaNs as duplicates). -/
def duplicatedVals : List Value → List Value → List Value
  | _, [] => []
  | seen, v :: t =>
      if seen.contains v then v :: duplicatedVals (seen ++ [v]) t
      else duplicatedVals (seen ++ [v]) t

/-- First-seen-order unique values (pandas `Series.unique()`, NaN included). -/
def uniqueVals : List Value → List Value
  | [] => []
  | v :: t => v :: uniqueVals (t.filter (fun w => w != v))
termination_by l => l.length
decreasing_by
  simp only [List.length_cons]
  exact Nat.lt_succ_of_le (List.length_filter_le _ _)

/-- Distinct non-null count (pandas `Series.nunique()`). -/
def nunique (l : List Value) : Nat :=
  (uniqueVals (l.filter (fun v => !isna v))).length

/-- `ExcelValidator._validate_hierarchy` (lines 156-179).  Note the guard-free
`df['internal_id']` access: a missing column raises KeyError. -/
def hierarchy (df : Df) : Except String (List String × List String) := do
  let mut errs : List String := []
  let mut warns : List String := []
  let ids ← getColE df "internal_id"
  let dups := duplicatedVals [] ids
  if !dups.isEmpty then
    errs := errs ++ ["Найдены дубликаты internal_id: " ++ pyListVal dups]
  if df.cols.contains "building_name" then
    let bvals := colOf df "building_name"
    for b in uniqueVals bvals do
      let sel := (List.range bvals.length).filter (fun i => pyEq (bvals.getD i Value.nan) b)
      let selIds := sel.map (fun i => ids.getD i Value.nan)
      if sel.isEmpty then
        errs := errs ++ ["Нет данных для корпуса " ++ pyStr b]
      else if !(duplicatedVals [] selIds).isEmpty then
        errs := errs ++ ["Найдены дубликаты internal_id в корпусе " ++ pyStr b]
      let addrs ← getColE df "address"
      if nunique (sel.map (fun i => addrs.getD i Value.nan)) > 1 then
        warns := warns ++ ["В корпусе " ++ pyStr b ++ " используется несколько разных адресов"]
      if df.cols.contains "built_year" then
        let bys := colOf df "built_year"
        if nunique (sel.map (fun i => bys.getD i Value.nan)) > 1 then
          warns := warns ++ ["В корпусе " ++ pyStr b ++ " указаны разные года постройки"]
  return (errs, warns)

/-- `ExcelValidator.validate_dataframe` (lines 54-66): runs the five
sub-validators in order (the `_validate_data_types` stage mutates `df`),
returning `(len(errors) == 0, errors + warnings)` together with the mutated
DataFrame.  Exceptions from unguarded column accesses propagate. -/
def validate_dataframe (df : Df) : Except String ((Bool × List String) × Df) := do
  let e1 := requiredFieldErrors df
  let td := dataTypes df
  let df2 := td.1
  let e2 := td.2
  let nv ← numericValues df2
  let br ← businessRules df2
  let hi ← hierarchy df2
  let errors := e1 ++ e2 ++ nv.1 ++ br.1 ++ hi.1
  let warnings := nv.2 ++ br.2 ++ hi.2
  return ((errors.isEmpty, errors ++ warnings), df2)

/-! ### The remote tabular store and the reconciler (src/google_sheets/sheets.py) -/

/-- The remote worksheet: a list of rows of strings; row 1 (index 0) is the
header when present. -/
structure Ws where
  rows : List (List String)
deriving DecidableEq, Repr

/-- Which store primitives raise (network/API failure injection).  A field
`some e` makes every call of that primitive raise `e`. -/
structure FailSpec where
  rowValuesErr : Option String
  getAllValuesErr : Option String
  appendRowErr : Option String
  appendRowsErr : Option String
  batchUpdateErr : Option String
  deleteRowsErr : Option String
  clearErr : Option String
deriving Repr

/-- All store operations succeed. -/
def noFail : FailSpec :=
  ⟨Option.none, Option.none, Option.none, Option.none, Option.none, Option.none, Option.none⟩

/-- `GoogleSheetsClient.SERVICE_COLUMNS` (lines 16-21). -/
def SERVICE_COLUMNS : List String :=
  ["developer_telegram_id", "source_file_id", "creation_date", "last_update_date"]

/-- `worksheet.row_values(1)`. -/
def wsRowValues1 (fs : FailSpec) (ws : Ws) : Except String (List String) × Ws :=
  match fs.rowValuesErr with
  | some e => (.error e, ws)
  | Option.none => (.ok (ws.rows.headD []), ws)

/-- `worksheet.get_all_values()`. -/
def wsGetAllValues (fs : FailSpec) (ws : Ws) : Except String (List (List String)) × Ws :=
  match fs.getAllValuesErr with
  | some e => (.error e, ws)
  | Option.none => (.ok ws.rows, ws)

/-- `worksheet.append_row(r)`. -/
def wsAppendRow (fs : FailSpec) (r : List String) (ws : Ws) : Except String Unit × Ws :=
  match fs.appendRowErr with
  | some e => (.error e, ws)
  | Option.none => (.ok (), ⟨ws.rows ++ [r]⟩)

/-- `worksheet.append_rows(batch)`. -/
def wsAppendRows (fs : FailSpec) (batch : List (List String)) (ws : Ws) : Except String Unit × Ws :=
  match fs.appendRowsErr with
  | some e => (.error e, ws)
  | Option.none => (.ok (), ⟨ws.rows ++ batch⟩)

@[simp] theorem noFail_rowValuesErr : noFail.rowValuesErr = Option.none := rfl

@[simp] theorem noFail_getAllValuesErr : noFail.getAllValuesErr = Option.none := rfl

@[simp] theorem noFail_appendRowErr : noFail.appendRowErr = Option.none := rfl

@[simp] theorem noFail_appendRowsErr : noFail.appendRowsErr = Option.none := rfl

@[simp] theorem noFail_batchUpdateErr : noFail.batchUpdateErr = Option.none := rfl

@[simp] theorem noFail_deleteRowsErr : noFail.deleteRowsErr = Option.none := rfl

@[simp] theorem noFail_clearErr : noFail.clearErr = Option.none := rfl

@[simp] theorem wsRowValues1_noFail (ws : Ws) :
    wsRowValues1 noFail ws = (.ok (ws.rows.headD []), ws) := rfl

@[simp] theorem wsGetAllValues_noFail (ws : Ws) :
    wsGetAllValues noFail ws = (.ok ws.rows, ws) := rfl

@[simp] theorem wsAppendRow_noFail (r : List String) (ws : Ws) :
    wsAppendRow noFail r ws = (.ok (), ⟨ws.rows ++ [r]⟩) := rfl

@[simp] theorem wsAppendRows_noFail (batch : List (List String)) (ws : Ws) :
    wsAppendRows noFail batch ws = (.ok (), ⟨ws.rows ++ batch⟩) := rfl

/-- One `deleteDimension` request: delete the 1-based row `i`. -/
def applyBatchDelete (batch : List Nat) (rows : List (List String)) : List (List String) :=
  batch.foldl (fun rs i => rs.eraseIdx (i - 1)) rows

/-- Fuelled helper for `chunksOf` (structural recursion so that the kernel
can evaluate it; the fuel `l.length` always suffices). -/
def chunksOfAux (n : Nat) : Nat → List α → List (List α)
  | 0, _ => []
  | _, [] => []
  | fuel + 1, a :: t => (a :: t.take (n - 1)) :: chunksOfAux n fuel (t.drop (n - 1))

/-- Python slicing `l[i:i+n]` over `range(0, len(l), n)`, for `n ≥ 1`. -/
def chunksOf (n : Nat) (l : List α) : List (List α) :=
  chunksOfAux n l.length l

/-- Descending insertion (Python `sorted(reverse=True)`). -/
def sortDescIns (a : Nat) : List Nat → List Nat
  | [] => [a]
  | b :: t => if b ≤ a then a :: b :: t else b :: sortDescIns a t

def sortDesc (l : List Nat) : List Nat := l.foldr sortDescIns []

/-- `GoogleSheetsClient._delete_rows_batch` (lines 127-172): sort the 1-based
indices descending, split into batches of 1000, delete each batch with one
batch request; on a batch failure fall back to per-row deletion, swallowing
individual failures.  No exception ever escapes this function. -/
def deleteRowsBatch (fs : FailSpec) (rowsToDelete : List Nat) (ws : Ws) : Ws :=
  if rowsToDelete.isEmpty then ws
  else
    (chunksOf 1000 (sortDesc rowsToDelete)).foldl
      (fun w batch =>
        match fs.batchUpdateErr with
        | Option.none => ⟨applyBatchDelete batch w.rows⟩
        | some _ =>
            batch.foldl
              (fun w2 r =>
                match fs.deleteRowsErr with
                | Option.none => ⟨w2.rows.eraseIdx (r - 1)⟩
                | some _ => w2)
              w)
      ws

/-- `GoogleSheetsClient._clean_worksheet` (lines 43-50): clear, re-raising on
failure. -/
def cleanWorksheet (fs : FailSpec) (ws : Ws) : Except String Unit × Ws :=
  match fs.clearErr with
  | some e => (.error e, ws)
  | Option.none => (.ok (), ⟨[]⟩)

/-- `GoogleSheetsClient._get_or_create_headers` (lines 52-79): create headers
when the sheet is empty; when service columns are missing, clear the sheet and
rewrite headers with service columns prepended; otherwise keep headers. -/
def getOrCreateHeaders (fs : FailSpec) (dfCols : List String) (ws : Ws) :
    Except String (List String) × Ws :=
  match wsRowValues1 fs ws with
  | (.error e, w) => (.error e, w)
  | (.ok currentHeaders, w) =>
      if currentHeaders.isEmpty then
        let headers := SERVICE_COLUMNS ++ dfCols.filter (fun c => !SERVICE_COLUMNS.contains c)
        match wsAppendRow fs headers w with
        | (.error e, w2) => (.error e, w2)
        | (.ok _, w2) => (.ok headers, w2)
      else if SERVICE_COLUMNS.all currentHeaders.contains then
        (.ok currentHeaders, w)
      else
        let newHeaders := SERVICE_COLUMNS ++ currentHeaders.filter (fun c => !SERVICE_COLUMNS.contains c)
        match cleanWorksheet fs w with
        | (.error e, w2) => (.error e, w2)
        | (.ok _, w2) =>
            match wsAppendRow fs newHeaders w2 with
            | (.error e, w3) => (.error e, w3)
            | (.ok _, w3) => (.ok newHeaders, w3)

/-- The deletion test of lines 321-331 (and 253-263): a stored row is marked
for deletion iff it is long enough and its `developer_telegram_id` and
`source_file_id` cells equal the current call's identifiers. -/
def matchRow (devCol sfidCol : Nat) (developerId fileId : String) (r : List String) : Bool :=
  decide (max devCol sfidCol < r.length)
    && (r.getD devCol "" == developerId) && (r.getD sfidCol "" == fileId)

/-- `enumerate(all_values[1:], start=2)` collecting matching 1-based indices. -/
def collectDel (devCol sfidCol : Nat) (developerId fileId : String) :
    Nat → List (List String) → List Nat
  | _, [] => []
  | idx, r :: rest =>
      if matchRow devCol sfidCol developerId fileId r then
        idx :: collectDel devCol sfidCol developerId fileId (idx + 1) rest
      else collectDel devCol sfidCol developerId fileId (idx + 1) rest

/-- `df[c] = scalar` (lines 299-302): overwrite an existing column in place or
append a new one. -/
def setCol (df : Df) (c : String) (v : Value) : Df :=
  match listIndex c df.cols with
  | some i => ⟨df.cols, df.data.map (fun r => r.set i v)⟩
  | Option.none => ⟨df.cols ++ [c], df.data.map (fun r => r ++ [v])⟩

/-- Lines 298-302: stamp `source_file_id`, `last_update_date`, `creation_date`
and `developer_telegram_id` onto the normalized DataFrame. -/
def applyServiceCols (df : Df) (fileId nowIso developerId : String) : Df :=
  setCol (setCol (setCol (setCol df "source_file_id" (.str fileId))
    "last_update_date" (.str nowIso)) "creation_date" (.str nowIso))
    "developer_telegram_id" (.str developerId)

/-- Lines 341-347: one output row, `str(row.get(col, ''))` per header column. -/
def mkNewRow (cols : List String) (r : List Value) (header : List String) : List String :=
  header.map (fun c => pyStr (rowCell cols r c (Value.str "")))

/-- All output rows of the new dataset. -/
def mkNewRows (df : Df) (header : List String) : List (List String) :=
  df.data.map (fun r => mkNewRow df.cols r header)

/-- Lines 349-355: append the new rows in batches of `BATCH_SIZE`,
accumulating the total; an exception propagates to the enclosing handler. -/
def appendChunks (fs : FailSpec) : List (List (List String)) → Nat → Ws →
    Except String Nat × Ws
  | [], total, ws => (.ok total, ws)
  | c :: rest, total, ws =>
      match wsAppendRows fs c ws with
      | (.error e, w) => (.error e, w)
      | (.ok _, w) => appendChunks fs rest (total + c.length) w

/-- Python `list.index` ValueError text. -/
def notInListMsg (c : String) : String :=
  "Не найден обязательный столбец: \x27" ++ c ++ "\x27 is not in list"

/-- The deletion-only invocation (lines 232-272, `excel_path is None`): remove
every row matching `(developer_id, file_id)`.  Any exception is converted by
the handler at line 274. -/
def updateDeleteBody (fs : FailSpec) (developerId fileId : String) (ws : Ws) :
    Except String (Nat × List String) × Ws :=
  match wsRowValues1 fs ws with
  | (.error e, w) => (.error e, w)
  | (.ok header, w) =>
      if header.isEmpty then (.ok (0, []), w)
      else
        match wsGetAllValues fs w with
        | (.error e, w2) => (.error e, w2)
        | (.ok allValues, w2) =>
            if allValues.isEmpty then (.ok (0, []), w2)
            else
              match listIndex "developer_telegram_id" header with
              | Option.none => (.ok (0, [notInListMsg "developer_telegram_id"]), w2)
              | some devCol =>
                  match listIndex "source_file_id" header with
                  | Option.none => (.ok (0, [notInListMsg "source_file_id"]), w2)
                  | some sfCol =>
                      let rowsToDelete :=
                        collectDel devCol sfCol developerId fileId 2 (allValues.drop 1)
                      if rowsToDelete.isEmpty then (.ok (0, []), w2)
                      else
                        let w3 := deleteRowsBatch fs rowsToDelete w2
                        (.ok (rowsToDelete.length, []), w3)

/-- The inner try of lines 304-363: read all values, find the provenance
column positions, delete this file's previous rows, append the new rows. -/
def updateInner (fs : FailSpec) (dff : Df) (header : List String)
    (developerId fileId : String) (ws : Ws) : Except String (Nat × List String) × Ws :=
  match wsGetAllValues fs ws with
  | (.error e, w) => (.error e, w)
  | (.ok av0, w) =>
      match (if av0.isEmpty then wsAppendRow fs header w else (.ok (), w)) with
      | (.error e, w2) => (.error e, w2)
      | (.ok _, w2) =>
          let allValues := if av0.isEmpty then [header] else av0
          match listIndex "developer_telegram_id" header with
          | Option.none => (.ok (0, [notInListMsg "developer_telegram_id"]), w2)
          | some devCol =>
              match listIndex "source_file_id" header with
              | Option.none => (.ok (0, [notInListMsg "source_file_id"]), w2)
              | some sfCol =>
                  let rowsToDelete :=
                    collectDel devCol sfCol developerId fileId 2 (allValues.drop 1)
                  let w3 := if rowsToDelete.isEmpty then w2
                            else deleteRowsBatch fs rowsToDelete w2
                  let newRows := mkNewRows dff header
                  match appendChunks fs (chunksOf 1000 newRows) 0 w3 with
                  | (.error e, w4) => (.error e, w4)
                  | (.ok total, w4) => (.ok (total, []), w4)

/-- Lines 280-363 for a decoded dataset: validate, normalize, sync headers,
stamp provenance, then run the inner delete/append phase.  Header-sync and
inner-phase exceptions are converted at lines 294-295 and 360-363; validator
and normalizer exceptions propagate to the outer handler. -/
def updateBody (fs : FailSpec) (df : Df) (developerId fileId nowIso : String) (ws : Ws) :
    Except String (Nat × List String) × Ws :=
  match validate_dataframe df with
  | .error e => (.error e, ws)
  | .ok ((isValid, messages), dfv) =>
      if !isValid then (.ok (0, messages), ws)
      else
        match normalize_dataframe dfv developerId nowIso with
        | .error e => (.error e, ws)
        | .ok dfn =>
            match getOrCreateHeaders fs dfn.cols ws with
            | (.error e, w) => (.ok (0, ["Ошибка при работе с заголовками: " ++ e]), w)
            | (.ok header, w) =>
                let dff := applyServiceCols dfn fileId nowIso developerId
                match updateInner fs dff header developerId fileId w with
                | (.error e, w2) => (.ok (0, ["Ошибка при обновлении данных: " ++ e]), w2)
                | (.ok r, w2) => (.ok r, w2)

/-- `GoogleSheetsClient.update_sheet_with_excel` (lines 223-368): the
reconciler.  `excel = none` is the deletion-only invocation; otherwise the
decoded dataset is reconciled.  The outer handler (lines 365-368) converts
any escaped exception into `(0, [error_message])`. -/
def update_sheet_with_excel (fs : FailSpec) (excel : Option Df)
    (developerId fileId nowIso : String) (ws : Ws) : Except String (Nat × List String) × Ws :=
  match excel with
  | Option.none =>
      match updateDeleteBody fs developerId fileId ws with
      | (.error e, w) => (.ok (0, ["Ошибка при удалении данных: " ++ e]), w)
      | (.ok r, w) => (.ok r, w)
  | some df =>
      match updateBody fs df developerId fileId nowIso ws with
      | (.error e, w) => (.ok (0, ["Общая ошибка при обновлении таблицы: " ++ e]), w)
      | (.ok r, w) => (.ok r, w)

/-- Modelled from the spec: the *superseded* predicate as the claims state it
— a stored row is superseded iff it matches `owner_id` and either its
`source_file_id` equals the upload's or its `listing_id` is missing from the
new dataset's listing-id set.  (For comparison with the implementation.) -/
def claimSuperseded (devCol sfidCol idCol : Nat) (developerId fileId : String)
    (newIds : List String) (r : List String) : Bool :=
  (r.getD devCol "" == developerId)
    && ((r.getD sfidCol "" == fileId) || !(newIds.contains (r.getD idCol "")))

/-! ### The XML feed generator (src/feed/feed_generator.py) -/

/-- An XML tree as built with `xml.etree.ElementTree`: elements carry a tag,
attributes and children; an assigned `.text` is a leading text child. -/
inductive Xml where
  | elem : String → List (String × String) → List Xml → Xml
  | text : String → Xml
deriving Repr

/-- A record handed to the generator (one row of the store / one dict). -/
def FeedRow := List (String × Value)

/-- `row.get(c)` followed by `pd.notna`: false when the key is absent. -/
def notnaAt (r : FeedRow) (c : String) : Bool :=
  match List.lookup c r with
  | some v => !isna v
  | Option.none => false

/-- The cell at key `c` (NaN when absent, as in a DataFrame row). -/
def getCell (r : FeedRow) (c : String) : Value :=
  (List.lookup c r).getD Value.nan

/-- `str(row.get(c, dflt))` where `dflt` is already a string. -/
def rowGetStrD (r : FeedRow) (c : String) (dflt : String) : String :=
  match List.lookup c r with
  | some v => pyStr v
  | Option.none => dflt

def textElem (tag s : String) : Xml := Xml.elem tag [] [Xml.text s]

def optElem (cond : Bool) (x : Xml) : List Xml := if cond then [x] else []

/-- Lines 134-141: the `location` element; `country` is unconditional. -/
def locationElem (r : FeedRow) : Xml :=
  Xml.elem "location" []
    ([textElem "country" "Россия"]
      ++ optElem (notnaAt r "address") (textElem "address" (pyStr (getCell r "address")))
      ++ optElem (notnaAt r "metro_station")
          (textElem "metro-station" (pyStr (getCell r "metro_station")))
      ++ optElem (notnaAt r "distance_to_metro")
          (textElem "distance-to-metro" (pyStr (getCell r "distance_to_metro"))))

/-- Lines 143-146: the composite `price` element. -/
def priceElem (r : FeedRow) : Xml :=
  Xml.elem "price" []
    [textElem "value" (pyStr (getCell r "price")),
     textElem "currency" (rowGetStrD r "currency" "RUB")]

/-- Lines 150-161: a composite area element with a fixed unit. -/
def areaElem (tag col : String) (r : FeedRow) : Xml :=
  Xml.elem tag [] [textElem "value" (pyStr (getCell r col)), textElem "unit" "кв. м"]

/-- Lines 203-207: one `image` element per non-empty trimmed URL segment. -/
def imagesOf (r : FeedRow) : List Xml :=
  if notnaAt r "image_urls" then
    ((pyStr (getCell r "image_urls")).splitOn ",").filterMap (fun url =>
      if pyStrip url ≠ "" then some (textElem "image" (pyStrip url)) else Option.none)
  else []

/-- `XMLFeedGenerator._add_offer` (lines 124-207): `type`, `property-type`,
`category` and `location` are unconditional (note `type` reads the `category`
column); every other field is guarded by `pd.notna` only. -/
def addOffer (r : FeedRow) : Xml :=
  Xml.elem "offer" [("internal-id", rowGetStrD r "internal_id" "")]
    ([textElem "type" (rowGetStrD r "category" "продажа"),
      textElem "property-type" (rowGetStrD r "property_type" "квартира"),
      textElem "category" (rowGetStrD r "category" "жилая")]
      ++ optElem (notnaAt r "creation_date")
          (textElem "creation-date" (pyStr (getCell r "creation_date")))
      ++ [locationElem r]
      ++ optElem (notnaAt r "price") (priceElem r)
      ++ optElem (notnaAt r "price_sale") (textElem "price-sale" (pyStr (getCell r "price_sale")))
      ++ optElem (notnaAt r "area_total") (areaElem "area" "area_total" r)
      ++ optElem (notnaAt r "area_living") (areaElem "living-space" "area_living" r)
      ++ optElem (notnaAt r "area_kitchen") (areaElem "kitchen-space" "area_kitchen" r)
      ++ optElem (notnaAt r "floor") (textElem "floor" (pyStr (getCell r "floor")))
      ++ optElem (notnaAt r "floors_total")
          (textElem "floors-total" (pyStr (getCell r "floors_total")))
      ++ optElem (notnaAt r "building_name")
          (textElem "building-name" (pyStr (getCell r "building_name")))
      ++ optElem (notnaAt r "built_year") (textElem "built-year" (pyStr (getCell r "built_year")))
      ++ optElem (notnaAt r "section") (textElem "section" (pyStr (getCell r "section")))
      ++ optElem (notnaAt r "construction_type")
          (textElem "construction-type" (pyStr (getCell r "construction_type")))
      ++ optElem (notnaAt r "elevator_count")
          (textElem "elevator-count" (pyStr (getCell r "elevator_count")))
      ++ optElem (notnaAt r "number") (textElem "apartment-number" (pyStr (getCell r "number")))
      ++ optElem (notnaAt r "rooms") (textElem "rooms" (pyStr (getCell r "rooms")))
      ++ optElem (notnaAt r "ceiling_height")
          (textElem "ceiling-height" (pyStr (getCell r "ceiling_height")))
      ++ optElem (notnaAt r "renovation_type")
          (textElem "renovation-type" (pyStr (getCell r "renovation_type")))
      ++ optElem (notnaAt r "balcony_type")
          (textElem "balcony-type" (pyStr (getCell r "balcony_type")))
      ++ optElem (notnaAt r "has_parking")
          (textElem "has-parking" (pyStr (getCell r "has_parking")))
      ++ optElem (notnaAt r "windows_view")
          (textElem "window-view" (pyStr (getCell r "windows_view")))
      ++ optElem (notnaAt r "description")
          (textElem "description" (pyStr (getCell r "description")))
      ++ optElem (notnaAt r "mortgage_available")
          (textElem "mortgage-available" (pyStr (getCell r "mortgage_available")))
      ++ optElem (notnaAt r "initial_payment")
          (textElem "initial-payment" (pyStr (getCell r "initial_payment")))
      ++ optElem (notnaAt r "developer_name")
          (textElem "developer-name" (pyStr (getCell r "developer_name")))
      ++ imagesOf r)

/-- `pd.DataFrame(list_of_dicts)` column set, in first-seen key order. -/
def unionKeys (data : List FeedRow) : List String :=
  data.foldl (fun acc r => acc ++ (r.map Prod.fst).filter (fun k => !acc.contains k)) []

/-- First-seen deduplication of group keys. -/
def dedupStr (l : List String) : List String :=
  l.foldl (fun acc k => if acc.contains k then acc else acc ++ [k]) []

def insStrAsc (a : String) : List String → List String
  | [] => [a]
  | b :: t => if a < b then a :: b :: t else b :: insStrAsc a t

def sortStrAsc (l : List String) : List String := l.foldr insStrAsc []

/-- `df.groupby(c)` keys: distinct non-null values, sorted (pandas sorts group
keys); NaN groups are dropped. -/
def groupKeysSorted (rows : List FeedRow) (c : String) : List String :=
  sortStrAsc (dedupStr (rows.filterMap (fun r =>
    let v := getCell r c
    if isna v then Option.none else some (pyStr v))))

/-- Members of the group with key `k`. -/
def groupRows (rows : List FeedRow) (c : String) (k : String) : List FeedRow :=
  rows.filter (fun r =>
    let v := getCell r c
    !isna v && pyStr v == k)

/-- Lines 46-88: group by complex, then by building within a complex; by
building only; or emit a flat offer list. -/
def feedGroups (cols : List String) (rows : List FeedRow) : List Xml :=
  if cols.contains "complex_name" then
    (groupKeysSorted rows "complex_name").map (fun cname =>
      let grp := groupRows rows "complex_name" cname
      let complexId :=
        if cols.contains "developer_id" then
          "complex_" ++ pyStr (getCell (grp.headD []) "developer_id") ++ "_" ++ cname
        else "complex_" ++ cname
      Xml.elem "complex" []
        ([textElem "id" complexId, textElem "name" cname]
          ++ (if cols.contains "building_name" then
                (groupKeysSorted grp "building_name").map (fun bname =>
                  Xml.elem "building" []
                    ([textElem "id" ("building_" ++ complexId ++ "_" ++ bname),
                      textElem "name" bname]
                      ++ (groupRows grp "building_name" bname).map addOffer))
              else grp.map addOffer)))
  else if cols.contains "building_name" then
    (groupKeysSorted rows "building_name").map (fun bname =>
      Xml.elem "building" []
        ([textElem "id" ("building_" ++ bname), textElem "name" bname]
          ++ (groupRows rows "building_name" bname).map addOffer))
  else rows.map addOffer

/-- Line 44: the generation timestamp element. -/
def genDateElem (nowIso : String) : Xml := textElem "generation-date" nowIso

/-- Lines 41-44 + 46-88: the complete feed tree for a given clock reading. -/
def feedRoot (nowIso : String) (cols : List String) (rows : List FeedRow) : Xml :=
  Xml.elem "realty-feed" [("xmlns", "http://webmaster.yandex.ru/schemas/feed/realty/2010-06")]
    (genDateElem nowIso :: feedGroups cols rows)

/-- minidom character escaping for text and attribute data. -/
def escChar (c : Char) : String :=
  if c = '&' then "&amp;"
  else if c = '<' then "&lt;"
  else if c = '>' then "&gt;"
  else if c = '"' then "&quot;"
  else String.singleton c

def escData (s : String) : String := String.join (s.data.map escChar)

def indentStr (d : Nat) : String := String.mk (List.replicate (2 * d) ' ')

mutual
/-- minidom `toprettyxml(indent="  ")` element rendering: childless elements
self-close, single-text-child elements render inline, others indent each
child on its own line. -/
def renderElem : Nat → Xml → String
  | depth, .text s => indentStr depth ++ escData s ++ "\n"
  | depth, .elem tag attrs children =>
      let ind := indentStr depth
      let attrStr := String.join (attrs.map (fun p => " " ++ p.1 ++ "=\"" ++ escData p.2 ++ "\""))
      match children with
      | [] => ind ++ "<" ++ tag ++ attrStr ++ "/>\n"
      | [Xml.text s] =>
          if s = "" then ind ++ "<" ++ tag ++ attrStr ++ "/>\n"
          else ind ++ "<" ++ tag ++ attrStr ++ ">" ++ escData s ++ "</" ++ tag ++ ">\n"
      | _ => ind ++ "<" ++ tag ++ attrStr ++ ">\n"
             ++ renderList (depth + 1) children ++ ind ++ "</" ++ tag ++ ">\n"

def renderList : Nat → List Xml → String
  | _, [] => ""
  | depth, x :: xs => renderElem depth x ++ renderList depth xs
end

/-- Lines 90-95: serialize with an XML declaration and 2-space indentation. -/
def renderDoc (root : Xml) : String :=
  "<?xml version=\"1.0\" encoding=\"utf-8\"?>\n" ++ renderElem 0 root

/-- `XMLFeedGenerator.generate_feed` (lines 17-99): empty data or an empty
filtered set yield `""`; a missing filter column raises (the function
re-raises exceptions); otherwise render the feed tree at the current clock
reading `nowIso`. -/
def generate_feed (nowIso : String) (data : List FeedRow) (developerId : Option String) :
    Except String String :=
  let cols := unionKeys data
  if data.isEmpty then .ok ""
  else
    match developerId with
    | some dev =>
        if dev = "" then .ok (renderDoc (feedRoot nowIso cols data))
        else if !cols.contains "developer_telegram_id" then
          .error "KeyError: \x27developer_telegram_id\x27"
        else
          let rows := data.filter (fun r => pyStr (getCell r "developer_telegram_id") == dev)
          if rows.isEmpty then .ok ""
          else .ok (renderDoc (feedRoot nowIso cols rows))
    | Option.none => .ok (renderDoc (feedRoot nowIso cols data))

/-- Replace the text of the leading `generation-date` child. -/
def setGenDate (nowIso : String) : Xml → Xml
  | .elem t a (_ :: rest) => .elem t a (genDateElem nowIso :: rest)
  | x => x

/-- Does this node carry the given element tag? -/
def isTag (t : String) : Xml → Bool
  | .elem t2 _ _ => decide (t2 = t)
  | .text _ => false

/-- Count of the given tag in a child list. -/
def cntL (t : String) (l : List Xml) : Nat := (l.filter (isTag t)).length

/-- First node with the given tag in a child list. -/
def findL (t : String) (l : List Xml) : Option Xml := l.find? (isTag t)

/-- Number of direct children with the given tag. -/
def countTag (t : String) (x : Xml) : Nat :=
  match x with
  | .elem _ _ ch => cntL t ch
  | .text _ => 0

/-- The first direct child with the given tag. -/
def findTag (t : String) (x : Xml) : Option Xml :=
  match x with
  | .elem _ _ ch => findL t ch
  | .text _ => Option.none

/-! ### Idempotence of Python `strip` -/

theorem dropWhile_self (p : α → Bool) (l : List α) :
    (l.dropWhile p).dropWhile p = l.dropWhile p := by
  induction l with
  | nil => rfl
  | cons a t ih =>
      by_cases h : p a
      · simpa [List.dropWhile, h] using ih
      · simp [List.dropWhile, h]

theorem dropWhile_head_false (p : α → Bool) (l : List α) (a : α) (t : List α)
    (h : l.dropWhile p = a :: t) : p a = false := by
  induction l with
  | nil => simp at h
  | cons b u ih =>
      by_cases hb : p b
      · exact ih (by simpa [List.dropWhile, hb] using h)
      · rw [List.dropWhile_cons_of_neg (by simpa using hb)] at h
        cases h
        simpa using hb

theorem dropWhile_of_head_false (p : α → Bool) (l : List α)
    (h : ∀ a t, l = a :: t → p a = false) : l.dropWhile p = l := by
  cases l with
  | nil => rfl
  | cons a t => rw [List.dropWhile_cons_of_neg (by simpa using h a t rfl)]

theorem pyStripL_idem (l : List Char) : pyStripL (pyStripL l) = pyStripL l := by
  unfold pyStripL
  set A := l.dropWhile pyIsSpace with hA
  set X := A.reverse.dropWhile pyIsSpace with hX
  -- step 1: dropping leading whitespace of `X.reverse` is a no-op
  have h1 : X.reverse.dropWhile pyIsSpace = X.reverse := by
    apply dropWhile_of_head_false
    intro a t h
    -- `a` is the last element of `X`, i.e. the last element of `A.reverse.dropWhile`,
    -- which is the last element of `A.reverse` = head of `A`, which fails `pyIsSpace`.
    have hx : X ≠ [] := by
      intro hnil
      rw [hnil] at h
      simp at h
    -- the last element of X is the head of A
    have hlast : X.getLast? = A.reverse.getLast? := by
      rw [hX]
      have := List.takeWhile_append_dropWhile (p := pyIsSpace) (l := A.reverse)
      conv_rhs => rw [← this]
      rw [List.getLast?_append_of_ne_nil]
      intro hnil
      rw [hX] at hx
      exact hx hnil
    have hformR : X.reverse = a :: t := h
    have hXform : X = t.reverse ++ [a] := by
      have := congrArg List.reverse hformR
      simpa using this
    have hXlast : X.getLast? = some a := by
      rw [hXform]
      simp
    have hArev : A.reverse.getLast? = some a := by rw [← hlast, hXlast]
    have hAhead : A.head? = some a := by
      rw [← List.getLast?_reverse]
      simpa using hArev
    cases hAc : A with
    | nil => rw [hAc] at hAhead; simp at hAhead
    | cons b u =>
        have hb : pyIsSpace b = false := dropWhile_head_false _ _ _ _ (hA ▸ hAc)
        rw [hAc] at hAhead
        simp at hAhead
        rw [hAhead] at hb
        exact hb
  rw [h1]
  -- step 2: dropping "trailing" whitespace of X.reverse.reverse.reverse = X is a no-op
  have h2 : X.dropWhile pyIsSpace = X := by
    apply dropWhile_of_head_false
    intro a t h
    exact dropWhile_head_false pyIsSpace A.reverse a t (hX ▸ h)
  simp [h2]

theorem pyStrip_idem (s : String) : pyStrip (pyStrip s) = pyStrip s := by
  unfold pyStrip
  simp [pyStripL_idem]

theorem normalizeCell_str (s : String) : normalizeCell (Value.str s) = pyStrip s := rfl

theorem normalizeCell_idem (v : Value) :
    normalizeCell (Value.str (normalizeCell v)) = normalizeCell v := by
  cases v <;> simp [normalizeCell, pyStr, safe_str, pyStrip_idem]

/-! ### List machinery for the batch-delete phase -/

theorem chunksOfAux_join (n : Nat) (fuel : Nat) (l : List α) (hf : l.length ≤ fuel) :
    (chunksOfAux n fuel l).flatten = l := by
  induction fuel generalizing l with
  | zero =>
      cases l with
      | nil => rfl
      | cons a t => simp at hf
  | succ fuel ih =>
      cases l with
      | nil => rfl
      | cons a t =>
          rw [chunksOfAux]
          simp only [List.flatten_cons]
          have hfl : (t.drop (n - 1)).length ≤ fuel := by
            simp only [List.length_drop]
            simp only [List.length_cons] at hf
            omega
          rw [ih (t.drop (n - 1)) hfl]
          simp [List.cons_append, List.take_append_drop]

theorem chunksOf_join (n : Nat) (l : List α) : (chunksOf n l).flatten = l :=
  chunksOfAux_join n l.length l (Nat.le_refl _)

theorem appendChunks_noFail (chunks : List (List (List String))) (total : Nat) (ws : Ws) :
    appendChunks noFail chunks total ws
      = (.ok (total + chunks.flatten.length), ⟨ws.rows ++ chunks.flatten⟩) := by
  induction chunks generalizing total ws with
  | nil => simp [appendChunks]
  | cons c rest ih =>
      simp only [appendChunks, wsAppendRows_noFail]
      rw [ih]
      simp [List.length_append, List.append_assoc, Nat.add_assoc]

theorem sortDescIns_all_lt (a : Nat) (l : List Nat) (h : ∀ x ∈ l, a < x) :
    sortDescIns a l = l ++ [a] := by
  induction l with
  | nil => rfl
  | cons b t ih =>
      have hb : a < b := h b (by simp)
      rw [sortDescIns, if_neg (by omega)]
      rw [ih (fun x hx => h x (by simp [hx]))]
      simp

theorem sortDesc_of_ascending (l : List Nat) (h : l.Pairwise (· < ·)) :
    sortDesc l = l.reverse := by
  induction l with
  | nil => rfl
  | cons a t ih =>
      have ht := (List.pairwise_cons.mp h).2
      have ha := (List.pairwise_cons.mp h).1
      show sortDescIns a (sortDesc t) = _
      rw [ih ht, sortDescIns_all_lt a t.reverse (fun x hx => ha x (List.mem_reverse.mp hx))]
      simp

theorem collectDel_ge (a b : Nat) (dev fid : String) (s : Nat) (data : List (List String)) :
    ∀ i ∈ collectDel a b dev fid s data, s ≤ i := by
  induction data generalizing s with
  | nil => simp [collectDel]
  | cons r rest ih =>
      intro i hi
      rw [collectDel] at hi
      by_cases hm : matchRow a b dev fid r
      · rw [if_pos hm] at hi
        rcases List.mem_cons.mp hi with h | h
        · omega
        · have := ih (s + 1) i h; omega
      · rw [if_neg hm] at hi
        have := ih (s + 1) i hi; omega

theorem collectDel_pairwise (a b : Nat) (dev fid : String) (s : Nat)
    (data : List (List String)) : (collectDel a b dev fid s data).Pairwise (· < ·) := by
  induction data generalizing s with
  | nil => simp [collectDel]
  | cons r rest ih =>
      rw [collectDel]
      by_cases hm : matchRow a b dev fid r
      · rw [if_pos hm]
        refine List.pairwise_cons.mpr ⟨?_, ih (s + 1)⟩
        intro i hi
        have := collectDel_ge a b dev fid (s + 1) rest i hi
        omega
      · rw [if_neg hm]
        exact ih (s + 1)

theorem collectDel_nil_iff (a b : Nat) (dev fid : String) (s : Nat)
    (data : List (List String)) :
    collectDel a b dev fid s data = [] ↔ ∀ r ∈ data, matchRow a b dev fid r = false := by
  induction data generalizing s with
  | nil => simp [collectDel]
  | cons r rest ih =>
      rw [collectDel]
      by_cases hm : matchRow a b dev fid r
      · simp [if_pos hm, hm]
      · simp only [if_neg hm, ih (s + 1), List.mem_cons]
        constructor
        · intro h x hx
          rcases hx with h1 | h1
          · subst h1; exact Bool.eq_false_iff.mpr hm
          · exact h x h1
        · intro h x hx
          exact h x (Or.inr hx)

theorem eraseIdx_append (pre : List α) (l : List α) :
    (pre ++ l).eraseIdx pre.length = pre ++ l.tail := by
  induction pre with
  | nil => cases l <;> simp [List.eraseIdx]
  | cons x t ih => simpa [List.eraseIdx] using ih

theorem applyBatchDelete_append (b1 b2 : List Nat) (rows : List (List String)) :
    applyBatchDelete (b1 ++ b2) rows = applyBatchDelete b2 (applyBatchDelete b1 rows) := by
  simp [applyBatchDelete, List.foldl_append]

theorem applyBatchDelete_collect (a b : Nat) (dev fid : String)
    (data : List (List String)) :
    ∀ pre : List (List String),
      applyBatchDelete ((collectDel a b dev fid (pre.length + 1) data).reverse) (pre ++ data)
        = pre ++ data.filter (fun r => !matchRow a b dev fid r) := by
  induction data with
  | nil => intro pre; simp [collectDel, applyBatchDelete]
  | cons r rest ih =>
      intro pre
      have hstep : pre.length + 1 + 1 = (pre ++ [r]).length + 1 := by simp
      by_cases hm : matchRow a b dev fid r
      · rw [collectDel, if_pos hm, List.reverse_cons, applyBatchDelete_append]
        have hmid :
            applyBatchDelete ((collectDel a b dev fid (pre.length + 1 + 1) rest).reverse)
              (pre ++ r :: rest) = (pre ++ [r]) ++ rest.filter (fun x => !matchRow a b dev fid x) := by
          rw [hstep]
          have := ih (pre ++ [r])
          simpa using this
        rw [hmid]
        show List.eraseIdx _ (pre.length + 1 - 1) = _
        simp only [Nat.add_sub_cancel]
        rw [List.append_assoc, eraseIdx_append]
        simp [List.filter_cons, hm]
      · rw [collectDel, if_neg hm]
        rw [hstep]
        have := ih (pre ++ [r])
        simp only [List.append_assoc, List.cons_append, List.nil_append] at this ⊢
        rw [this]
        simp [List.filter_cons, hm]

theorem deleteRowsBatch_core (l : List Nat) (ws : Ws) (h : ¬l.isEmpty) :
    deleteRowsBatch noFail l ws = ⟨applyBatchDelete (sortDesc l) ws.rows⟩ := by
  rw [deleteRowsBatch, if_neg (by simpa using h)]
  have hgen : ∀ (cs : List (List Nat)) (w : Ws),
      cs.foldl (fun w batch =>
        match noFail.batchUpdateErr with
        | Option.none => (⟨applyBatchDelete batch w.rows⟩ : Ws)
        | some _ =>
            batch.foldl (fun w2 r =>
              match noFail.deleteRowsErr with
              | Option.none => ⟨w2.rows.eraseIdx (r - 1)⟩
              | some _ => w2) w) w
        = ⟨applyBatchDelete cs.flatten w.rows⟩ := by
    intro cs
    induction cs with
    | nil => intro w; simp [applyBatchDelete]
    | cons c rest ih =>
        intro w
        rw [List.foldl_cons, ih]
        show (⟨applyBatchDelete rest.flatten (applyBatchDelete c w.rows)⟩ : Ws) = _
        simp [List.flatten_cons, applyBatchDelete_append]
  rw [hgen]
  rw [chunksOf_join]

theorem deleteRowsBatch_collect (a b : Nat) (dev fid : String) (hdr : List String)
    (data : List (List String)) :
    deleteRowsBatch noFail (collectDel a b dev fid 2 data) ⟨hdr :: data⟩
      = ⟨hdr :: data.filter (fun r => !matchRow a b dev fid r)⟩ := by
  by_cases hnil : collectDel a b dev fid 2 data = []
  · rw [hnil]
    have hall := (collectDel_nil_iff a b dev fid 2 data).mp hnil
    have : data.filter (fun r => !matchRow a b dev fid r) = data := by
      apply List.filter_eq_self.mpr
      intro r hr
      simp [hall r hr]
    simp [deleteRowsBatch, this]
  · rw [deleteRowsBatch_core _ _ (by simpa using hnil)]
    rw [sortDesc_of_ascending _ (collectDel_pairwise a b dev fid 2 data)]
    have := applyBatchDelete_collect a b dev fid data [hdr]
    simpa using this

/-! ### Characterization of a reconciliation run on a well-formed store -/

theorem getOrCreateHeaders_present (dfCols hdr : List String) (data : List (List String))
    (hne : hdr ≠ []) (hsvc : SERVICE_COLUMNS.all hdr.contains = true) :
    getOrCreateHeaders noFail dfCols ⟨hdr :: data⟩ = (.ok hdr, ⟨hdr :: data⟩) := by
  rw [getOrCreateHeaders]
  simp only [wsRowValues1_noFail, List.headD_cons]
  rw [if_neg (by simpa [List.isEmpty_iff] using hne), if_pos hsvc]

theorem updateInner_char (dff : Df) (hdr : List String) (dev fid : String)
    (data : List (List String)) (devCol sfCol : Nat)
    (hdev : listIndex "developer_telegram_id" hdr = some devCol)
    (hsf : listIndex "source_file_id" hdr = some sfCol) :
    updateInner noFail dff hdr dev fid ⟨hdr :: data⟩
      = (.ok ((mkNewRows dff hdr).length, []),
         ⟨(hdr :: data.filter (fun r => !matchRow devCol sfCol dev fid r)) ++ mkNewRows dff hdr⟩) := by
  rw [updateInner]
  simp only [wsGetAllValues_noFail, List.isEmpty_cons, Bool.false_eq_true, if_false, hdev, hsf,
    List.drop_succ_cons, List.drop_zero]
  rw [deleteRowsBatch_collect]
  have happ := appendChunks_noFail (chunksOf 1000 (mkNewRows dff hdr)) 0
    ⟨hdr :: data.filter (fun r => !matchRow devCol sfCol dev fid r)⟩
  rw [chunksOf_join] at happ
  by_cases hnil : (collectDel devCol sfCol dev fid 2 data).isEmpty
  · rw [if_pos hnil]
    have hall := (collectDel_nil_iff devCol sfCol dev fid 2 data).mp (by simpa using hnil)
    have hfe : data.filter (fun r => !matchRow devCol sfCol dev fid r) = data := by
      apply List.filter_eq_self.mpr
      intro r hr
      simp [hall r hr]
    rw [hfe] at happ
    rw [happ]
    simp [hfe]
  · rw [if_neg hnil, happ]
    simp

/- The reconciler wrappers are kept opaque to the elaborator inside this
section: their bodies are large and symbolic `whnf` is expensive; the lemmas
above already characterize them.  Reducibility returns at the section end. -/
section ReconcilerOpaque

attribute [local irreducible] validate_dataframe updateBody updateDeleteBody updateInner

theorem update_some_ok (fs : FailSpec) (df : Df) (dev fid now : String) (ws : Ws)
    (r : Nat × List String) (w : Ws)
    (h : updateBody fs df dev fid now ws = (.ok r, w)) :
    update_sheet_with_excel fs (some df) dev fid now ws = (.ok r, w) := by
  rw [update_sheet_with_excel.eq_def]
  split
  next heq => exact Option.noConfusion heq
  next df2 heq =>
    have hdf : df = df2 := Option.some.inj heq
    subst hdf
    split
    next e w2 heq2 =>
      rw [h] at heq2
      simp at heq2
    next r2 w2 heq2 =>
      rw [h] at heq2
      simp only [Prod.mk.injEq] at heq2
      obtain ⟨h1, h2⟩ := heq2
      injection h1 with h1
      rw [← h1, ← h2]

theorem update_none_ok (fs : FailSpec) (dev fid now : String) (ws : Ws)
    (r : Nat × List String) (w : Ws)
    (h : updateDeleteBody fs dev fid ws = (.ok r, w)) :
    update_sheet_with_excel fs Option.none dev fid now ws = (.ok r, w) := by
  rw [update_sheet_with_excel.eq_def]
  split
  next =>
    split
    next e w2 heq2 =>
      rw [h] at heq2
      simp at heq2
    next r2 w2 heq2 =>
      rw [h] at heq2
      simp only [Prod.mk.injEq] at heq2
      obtain ⟨h1, h2⟩ := heq2
      injection h1 with h1
      rw [← h1, ← h2]
  next df2 heq => exact Option.noConfusion heq

theorem updateBody_char (D D1 D2 : Df) (msgs : List String) (hdr : List String)
    (data : List (List String)) (dev fid now : String) (devCol sfCol : Nat)
    (hval : validate_dataframe D = .ok ((true, msgs), D1))
    (hnorm : normalize_dataframe D1 dev now = .ok D2)
    (hne : hdr ≠ []) (hsvc : SERVICE_COLUMNS.all hdr.contains = true)
    (hdev : listIndex "developer_telegram_id" hdr = some devCol)
    (hsf : listIndex "source_file_id" hdr = some sfCol) :
    update_sheet_with_excel noFail (some D) dev fid now ⟨hdr :: data⟩
      = (.ok ((mkNewRows (applyServiceCols D2 fid now dev) hdr).length, []),
         ⟨(hdr :: data.filter (fun r => !matchRow devCol sfCol dev fid r))
           ++ mkNewRows (applyServiceCols D2 fid now dev) hdr⟩) := by
  have hb : updateBody noFail D dev fid now ⟨hdr :: data⟩
      = (.ok ((mkNewRows (applyServiceCols D2 fid now dev) hdr).length, []),
         ⟨(hdr :: data.filter (fun r => !matchRow devCol sfCol dev fid r))
           ++ mkNewRows (applyServiceCols D2 fid now dev) hdr⟩) := by
    conv_lhs => rw [updateBody.eq_def, hval]
    show (match normalize_dataframe D1 dev now with
          | Except.error e => (Except.error e, (⟨hdr :: data⟩ : Ws))
          | Except.ok dfn =>
              match getOrCreateHeaders noFail dfn.cols ⟨hdr :: data⟩ with
              | (Except.error e, w) =>
                  (Except.ok (0, ["Ошибка при работе с заголовками: " ++ e]), w)
              | (Except.ok header, w) =>
                  match updateInner noFail (applyServiceCols dfn fid now dev) header dev fid w with
                  | (Except.error e, w2) =>
                      (Except.ok (0, ["Ошибка при обновлении данных: " ++ e]), w2)
                  | (Except.ok r, w2) => (Except.ok r, w2)) = _
    conv_lhs => rw [hnorm]
    show (match getOrCreateHeaders noFail D2.cols ⟨hdr :: data⟩ with
          | (Except.error e, w) =>
              (Except.ok (0, ["Ошибка при работе с заголовками: " ++ e]), w)
          | (Except.ok header, w) =>
              match updateInner noFail (applyServiceCols D2 fid now dev) header dev fid w with
              | (Except.error e, w2) =>
                  (Except.ok (0, ["Ошибка при обновлении данных: " ++ e]), w2)
              | (Except.ok r, w2) => (Except.ok r, w2)) = _
    conv_lhs => rw [getOrCreateHeaders_present D2.cols hdr data hne hsvc]
    show (match updateInner noFail (applyServiceCols D2 fid now dev) hdr dev fid ⟨hdr :: data⟩ with
          | (Except.error e, w2) =>
              (Except.ok (0, ["Ошибка при обновлении данных: " ++ e]), w2)
          | (Except.ok r, w2) => (Except.ok r, w2)) = _
    conv_lhs =>
      rw [updateInner_char (applyServiceCols D2 fid now dev) hdr dev fid data devCol sfCol hdev hsf]
  exact update_some_ok noFail D dev fid now ⟨hdr :: data⟩ _ _ hb

theorem updateDelete_char (hdr : List String) (data : List (List String))
    (dev fid now : String) (devCol sfCol : Nat)
    (hne : hdr ≠ [])
    (hdev : listIndex "developer_telegram_id" hdr = some devCol)
    (hsf : listIndex "source_file_id" hdr = some sfCol) :
    update_sheet_with_excel noFail Option.none dev fid now ⟨hdr :: data⟩
      = (.ok ((collectDel devCol sfCol dev fid 2 data).length, []),
         ⟨hdr :: data.filter (fun r => !matchRow devCol sfCol dev fid r)⟩) := by
  have hd : updateDeleteBody noFail dev fid ⟨hdr :: data⟩
      = (.ok ((collectDel devCol sfCol dev fid 2 data).length, []),
         ⟨hdr :: data.filter (fun r => !matchRow devCol sfCol dev fid r)⟩) := by
    rw [updateDeleteBody.eq_def]
    simp only [wsRowValues1_noFail, List.headD_cons, wsGetAllValues_noFail]
    rw [if_neg (by simpa [List.isEmpty_iff] using hne)]
    simp only [List.isEmpty_cons, Bool.false_eq_true, if_false, hdev, hsf,
      List.drop_succ_cons, List.drop_zero]
    by_cases hnil : (collectDel devCol sfCol dev fid 2 data).isEmpty
    · rw [if_pos hnil]
      have hall := (collectDel_nil_iff devCol sfCol dev fid 2 data).mp (by simpa using hnil)
      have hfe : data.filter (fun r => !matchRow devCol sfCol dev fid r) = data := by
        apply List.filter_eq_self.mpr
        intro r hr
        simp [hall r hr]
      have hlen : (collectDel devCol sfCol dev fid 2 data).length = 0 := by
        simp [List.isEmpty_iff.mp hnil]
      simp [hfe, hlen]
    · rw [if_neg hnil]
      rw [deleteRowsBatch_collect]
  exact update_none_ok noFail dev fid now ⟨hdr :: data⟩ _ _ hd

/-! ### Values of the provenance cells in freshly built output rows -/

theorem listIndex_lt_length (a : String) (l : List String) (i : Nat)
    (h : listIndex a l = some i) : i < l.length := by
  induction l generalizing i with
  | nil => simp [listIndex] at h
  | cons b t ih =>
      rw [listIndex] at h
      by_cases hb : b = a
      · rw [if_pos hb] at h
        cases h
        simp
      · rw [if_neg hb] at h
        rcases Option.map_eq_some'.mp h with ⟨j, hj, rfl⟩
        have := ih j hj
        simp
        omega

theorem listIndex_getD (a : String) (l : List String) (i : Nat)
    (h : listIndex a l = some i) : l.getD i "" = a := by
  induction l generalizing i with
  | nil => simp [listIndex] at h
  | cons b t ih =>
      rw [listIndex] at h
      by_cases hb : b = a
      · rw [if_pos hb] at h
        cases h
        simpa using hb
      · rw [if_neg hb] at h
        rcases Option.map_eq_some'.mp h with ⟨j, hj, rfl⟩
        simpa using ih j hj

theorem listIndex_append_of_none (a : String) (l : List String)
    (h : listIndex a l = Option.none) : listIndex a (l ++ [a]) = some l.length := by
  induction l with
  | nil => simp [listIndex]
  | cons b t ih =>
      rw [listIndex] at h
      by_cases hb : b = a
      · rw [if_pos hb] at h; cases h
      · rw [if_neg hb] at h
        rw [List.cons_append, listIndex, if_neg hb,
          ih (by simpa [Option.map_eq_none'] using h)]
        simp

theorem listIndex_append_ne (a c : String) (l : List String) (h : a ≠ c) :
    listIndex a (l ++ [c]) = listIndex a l := by
  induction l with
  | nil =>
      have hca : ¬c = a := fun hc => h hc.symm
      simp [listIndex, hca]
  | cons b t ih =>
      rw [List.cons_append, listIndex, listIndex, ih]

theorem getD_map_of_lt (f : α → β) (l : List α) (i : Nat) (d : β) (d2 : α)
    (h : i < l.length) : (l.map f).getD i d = f (l.getD i d2) := by
  induction l generalizing i with
  | nil => simp at h
  | cons b t ih =>
      cases i with
      | zero => simp
      | succ j => simpa using ih j (by simpa using h)

theorem getD_set_of_lt (l : List α) (i : Nat) (v d : α) (h : i < l.length) :
    (l.set i v).getD i d = v := by
  induction l generalizing i with
  | nil => simp at h
  | cons b t ih =>
      cases i with
      | zero => simp
      | succ j => simpa using ih j (by simpa using h)

theorem getD_set_ne (l : List α) (i j : Nat) (v d : α) (h : i ≠ j) :
    (l.set i v).getD j d = l.getD j d := by
  induction l generalizing i j with
  | nil => simp
  | cons b t ih =>
      cases i with
      | zero =>
          cases j with
          | zero => exact absurd rfl h
          | succ j2 => simp
      | succ i2 =>
          cases j with
          | zero => simp
          | succ j2 => simpa using ih i2 j2 (by omega)

theorem getD_append_left (l l2 : List α) (j : Nat) (d : α) (h : j < l.length) :
    (l ++ l2).getD j d = l.getD j d := by
  induction l generalizing j with
  | nil => simp at h
  | cons b t ih =>
      cases j with
      | zero => simp
      | succ j2 => simpa using ih j2 (by simpa using h)

theorem getD_append_length (l : List α) (v d : α) :
    (l ++ [v]).getD l.length d = v := by
  induction l with
  | nil => simp
  | cons b t ih => simp [ih]

theorem setCol_aligned (df : Df) (c : String) (v : Value) (h : df.Aligned) :
    (setCol df c v).Aligned := by
  rw [setCol]
  cases hidx : listIndex c df.cols with
  | none =>
      intro r hr
      rcases List.mem_map.mp hr with ⟨r0, hr0, rfl⟩
      simp [h r0 hr0]
  | some i =>
      intro r hr
      rcases List.mem_map.mp hr with ⟨r0, hr0, rfl⟩
      simp [h r0 hr0]

theorem setCol_rowCell_self (df : Df) (c : String) (v : Value) (dflt : Value)
    (h : df.Aligned) :
    ∀ r ∈ (setCol df c v).data, rowCell (setCol df c v).cols r c dflt = v := by
  intro r hr
  cases hidx : listIndex c df.cols with
  | none =>
      simp only [setCol, hidx] at hr ⊢
      rcases List.mem_map.mp hr with ⟨r0, hr0, rfl⟩
      rw [rowCell, listIndex_append_of_none c df.cols hidx]
      have hl := getD_append_length r0 v dflt
      rw [h r0 hr0] at hl
      exact hl
  | some i =>
      simp only [setCol, hidx] at hr ⊢
      rcases List.mem_map.mp hr with ⟨r0, hr0, rfl⟩
      rw [rowCell, hidx]
      exact getD_set_of_lt r0 i v dflt (by rw [h r0 hr0]; exact listIndex_lt_length c df.cols i hidx)

theorem setCol_rowCell_other (df : Df) (c cq : String) (v dflt : Value)
    (hne : cq ≠ c) (h : df.Aligned) :
    ∀ r ∈ (setCol df c v).data, ∃ r0 ∈ df.data,
      rowCell (setCol df c v).cols r cq dflt = rowCell df.cols r0 cq dflt := by
  intro r hr
  cases hidx : listIndex c df.cols with
  | none =>
      simp only [setCol, hidx] at hr ⊢
      rcases List.mem_map.mp hr with ⟨r0, hr0, rfl⟩
      refine ⟨r0, hr0, ?_⟩
      rw [rowCell, rowCell, listIndex_append_ne cq c df.cols hne]
      cases hq : listIndex cq df.cols with
      | none => rfl
      | some j =>
          exact getD_append_left r0 [v] j dflt
            (by rw [h r0 hr0]; exact listIndex_lt_length cq df.cols j hq)
  | some i =>
      simp only [setCol, hidx] at hr ⊢
      rcases List.mem_map.mp hr with ⟨r0, hr0, rfl⟩
      refine ⟨r0, hr0, ?_⟩
      rw [rowCell, rowCell]
      cases hq : listIndex cq df.cols with
      | none => rfl
      | some j =>
          have hji : i ≠ j := by
            intro hij
            subst hij
            have h1 := listIndex_getD c df.cols i hidx
            have h2 := listIndex_getD cq df.cols i hq
            exact hne (h2.symm.trans h1)
          exact getD_set_ne r0 i j v dflt hji

theorem applyServiceCols_aligned (D2 : Df) (fid now dev : String) (h : D2.Aligned) :
    (applyServiceCols D2 fid now dev).Aligned := by
  rw [applyServiceCols]
  exact setCol_aligned _ _ _ (setCol_aligned _ _ _ (setCol_aligned _ _ _ (setCol_aligned _ _ _ h)))

theorem applyServiceCols_dev (D2 : Df) (fid now dev : String) (dflt : Value)
    (h : D2.Aligned) :
    ∀ r ∈ (applyServiceCols D2 fid now dev).data,
      rowCell (applyServiceCols D2 fid now dev).cols r "developer_telegram_id" dflt
        = .str dev := by
  rw [applyServiceCols]
  exact setCol_rowCell_self _ _ _ _
    (setCol_aligned _ _ _ (setCol_aligned _ _ _ (setCol_aligned _ _ _ h)))

theorem applyServiceCols_sfid (D2 : Df) (fid now dev : String) (dflt : Value)
    (h : D2.Aligned) :
    ∀ r ∈ (applyServiceCols D2 fid now dev).data,
      rowCell (applyServiceCols D2 fid now dev).cols r "source_file_id" dflt
        = .str fid := by
  rw [applyServiceCols]
  intro r hr
  have hA1 := setCol_aligned D2 "source_file_id" (.str fid) h
  have hA2 := setCol_aligned _ "last_update_date" (.str now) hA1
  have hA3 := setCol_aligned _ "creation_date" (.str now) hA2
  rcases setCol_rowCell_other _ "developer_telegram_id" "source_file_id" (.str dev) dflt
    (by decide) hA3 r hr with ⟨r3, hr3, he3⟩
  rcases setCol_rowCell_other _ "creation_date" "source_file_id" (.str now) dflt
    (by decide) hA2 r3 hr3 with ⟨r2, hr2, he2⟩
  rcases setCol_rowCell_other _ "last_update_date" "source_file_id" (.str now) dflt
    (by decide) hA1 r2 hr2 with ⟨r1, hr1, he1⟩
  rw [he3, he2, he1]
  exact setCol_rowCell_self D2 "source_file_id" (.str fid) dflt h r1 hr1

theorem mkNewRows_match (D2 : Df) (hdr : List String) (dev fid now : String)
    (devCol sfCol : Nat) (hA : D2.Aligned)
    (hdev : listIndex "developer_telegram_id" hdr = some devCol)
    (hsf : listIndex "source_file_id" hdr = some sfCol) :
    ∀ row ∈ mkNewRows (applyServiceCols D2 fid now dev) hdr,
      matchRow devCol sfCol dev fid row = true := by
  intro row hrow
  rcases List.mem_map.mp hrow with ⟨r, hr, rfl⟩
  have hdl := listIndex_lt_length _ hdr devCol hdev
  have hsl := listIndex_lt_length _ hdr sfCol hsf
  have hlen : (mkNewRow (applyServiceCols D2 fid now dev).cols r hdr).length = hdr.length := by
    simp [mkNewRow]
  have hdv : (mkNewRow (applyServiceCols D2 fid now dev).cols r hdr).getD devCol "" = dev := by
    rw [mkNewRow, getD_map_of_lt _ hdr devCol "" "" hdl, listIndex_getD _ hdr devCol hdev]
    rw [applyServiceCols_dev D2 fid now dev (Value.str "") hA r hr]
    rfl
  have hfv : (mkNewRow (applyServiceCols D2 fid now dev).cols r hdr).getD sfCol "" = fid := by
    rw [mkNewRow, getD_map_of_lt _ hdr sfCol "" "" hsl, listIndex_getD _ hdr sfCol hsf]
    rw [applyServiceCols_sfid D2 fid now dev (Value.str "") hA r hr]
    rfl
  rw [matchRow, hdv, hfv, hlen]
  simp
  omega

theorem normalize_aligned (D1 : Df) (dev now : String) (D2 : Df) (h : D1.Aligned)
    (hn : normalize_dataframe D1 dev now = .ok D2) : D2.Aligned := by
  rw [normalize_dataframe] at hn
  by_cases h1 : (D1.cols.contains "developer_telegram_id" : Bool)
  · rw [if_pos h1] at hn; cases hn
  · rw [if_neg h1] at hn
    by_cases h2 : (D1.cols.contains "creation_date" : Bool)
    · rw [if_pos h2] at hn; cases hn
    · rw [if_neg h2] at hn
      cases hn
      intro r hr
      rcases List.mem_map.mp hr with ⟨r1, hr1, rfl⟩
      rcases List.mem_map.mp hr1 with ⟨r0, hr0, rfl⟩
      simp [h r0 hr0]

theorem coerceColumn_aligned (ty : PyType) (df : Df) (c : String) (h : df.Aligned) :
    (coerceColumn ty df c).1.Aligned := by
  cases hidx : listIndex c df.cols with
  | none => simp only [coerceColumn, hidx]; exact h
  | some i =>
      simp only [coerceColumn, hidx]
      by_cases hb : ty = PyType.pbool
      · rw [if_pos hb]
        intro r hr
        rcases List.mem_map.mp hr with ⟨r0, hr0, rfl⟩
        by_cases hna : isna (r0.getD i Value.nan) = true
        · rw [if_pos hna]; exact h r0 hr0
        · rw [if_neg hna]; rw [List.length_set]; exact h r0 hr0
      · rw [if_neg hb]
        by_cases hok : df.data.all (fun r =>
            isna (r.getD i Value.nan) || (coerceVal ty (r.getD i Value.nan)).isSome)
        · rw [if_pos hok]
          intro r hr
          rcases List.mem_map.mp hr with ⟨r0, hr0, rfl⟩
          by_cases hna : isna (r0.getD i Value.nan) = true
          · rw [if_pos hna]; exact h r0 hr0
          · rw [if_neg hna]; rw [List.length_set]; exact h r0 hr0
        · rw [if_neg hok]
          exact h

theorem dataTypes_aligned (df : Df) (h : df.Aligned) : (dataTypes df).1.Aligned := by
  rw [dataTypes]
  have hgen : ∀ (cols : List (String × PyType)) (acc : Df × List String), acc.1.Aligned →
      (cols.foldl (fun acc p =>
        if acc.1.cols.contains p.1 then
          let r := coerceColumn p.2 acc.1 p.1
          (r.1, acc.2 ++ r.2.toList)
        else acc) acc).1.Aligned := by
    intro cols
    induction cols with
    | nil => intro acc ha; exact ha
    | cons p rest ih =>
        intro acc ha
        rw [List.foldl_cons]
        by_cases hc : (acc.1.cols.contains p.1 : Bool)
        · rw [if_pos hc]
          exact ih _ (coerceColumn_aligned p.2 acc.1 p.1 ha)
        · rw [if_neg hc]
          exact ih _ ha
  exact hgen _ (df, []) h

theorem validate_ok_df (D : Df) (b : Bool) (msgs : List String) (D1 : Df)
    (h : validate_dataframe D = .ok ((b, msgs), D1)) : D1 = (dataTypes D).1 := by
  rw [validate_dataframe.eq_def] at h
  simp only [bind, Except.bind, pure, Except.pure] at h
  rcases hnv : numericValues (dataTypes D).1 with e | nv
  · rw [hnv] at h; cases h
  · rw [hnv] at h
    rcases hbr : businessRules (dataTypes D).1 with e | br
    · rw [hbr] at h; cases h
    · rw [hbr] at h
      rcases hhi : hierarchy (dataTypes D).1 with e | hi
      · rw [hhi] at h; cases h
      · rw [hhi] at h
        cases h
        rfl

theorem validate_aligned (D : Df) (b : Bool) (msgs : List String) (D1 : Df)
    (hA : D.Aligned) (h : validate_dataframe D = .ok ((b, msgs), D1)) : D1.Aligned := by
  rw [validate_ok_df D b msgs D1 h]
  exact dataTypes_aligned D hA

/-! ### Claim theorems for the reconciler -/

/-- C1 (amended): on a store whose header carries the provenance columns, a
reconciliation call deletes exactly the pre-existing rows that match
`owner_id` AND whose `source_file_id` equals the current upload's file id —
the surviving store is the header, the non-matching old rows in order, and
the new dataset's rows.  (The claim's additional "OR its listing_id is not in
the new dataset" deletions are not performed; see the counterexample.) -/
theorem C1_amended_delete_set
    (D D1 D2 : Df) (msgs : List String) (hdr : List String)
    (data : List (List String)) (dev fid now : String) (devCol sfCol : Nat)
    (hval : validate_dataframe D = .ok ((true, msgs), D1))
    (hnorm : normalize_dataframe D1 dev now = .ok D2)
    (hne : hdr ≠ []) (hsvc : SERVICE_COLUMNS.all hdr.contains = true)
    (hdev : listIndex "developer_telegram_id" hdr = some devCol)
    (hsf : listIndex "source_file_id" hdr = some sfCol) :
    update_sheet_with_excel noFail (some D) dev fid now ⟨hdr :: data⟩
      = (.ok ((mkNewRows (applyServiceCols D2 fid now dev) hdr).length, []),
         ⟨(hdr :: data.filter (fun r => !matchRow devCol sfCol dev fid r))
           ++ mkNewRows (applyServiceCols D2 fid now dev) hdr⟩) :=
  updateBody_char D D1 D2 msgs hdr data dev fid now devCol sfCol hval hnorm hne hsvc hdev hsf

/-- C2 (amended): running the reconciler twice with the identical dataset and
the same `source_file_id` adds no duplicates: the store ends with the header,
the old rows that do not match `(owner_id, source_file_id)`, and exactly one
copy of the new rows; when the canonical listing ids are distinct, exactly one
`(owner_id, source_file_id)` row per listing id remains.  Same-owner rows from
other source files are untouched and may still duplicate a listing id. -/
theorem C2_amended_idempotent
    (D D1 D2 : Df) (msgs : List String) (hdr : List String)
    (data : List (List String)) (dev fid now : String) (devCol sfCol idCol : Nat)
    (hA : D.Aligned)
    (hval : validate_dataframe D = .ok ((true, msgs), D1))
    (hnorm : normalize_dataframe D1 dev now = .ok D2)
    (hne : hdr ≠ []) (hsvc : SERVICE_COLUMNS.all hdr.contains = true)
    (hdev : listIndex "developer_telegram_id" hdr = some devCol)
    (hsf : listIndex "source_file_id" hdr = some sfCol)
    (hnd : ((mkNewRows (applyServiceCols D2 fid now dev) hdr).map
              (fun r => r.getD idCol "")).Nodup) :
    (update_sheet_with_excel noFail (some D) dev fid now
        (update_sheet_with_excel noFail (some D) dev fid now ⟨hdr :: data⟩).2).2
      = ⟨(hdr :: data.filter (fun r => !matchRow devCol sfCol dev fid r))
          ++ mkNewRows (applyServiceCols D2 fid now dev) hdr⟩
    ∧ ∀ s ∈ (mkNewRows (applyServiceCols D2 fid now dev) hdr).map (fun r => r.getD idCol ""),
        (((data.filter (fun r => !matchRow devCol sfCol dev fid r))
            ++ mkNewRows (applyServiceCols D2 fid now dev) hdr).filter
          (fun r => matchRow devCol sfCol dev fid r && (r.getD idCol "" == s))).length = 1 := by
  have hA2 : D2.Aligned :=
    normalize_aligned D1 dev now D2 (validate_aligned D true msgs D1 hA hval) hnorm
  have hmatch := mkNewRows_match D2 hdr dev fid now devCol sfCol hA2 hdev hsf
  have h1 := updateBody_char D D1 D2 msgs hdr data dev fid now devCol sfCol
    hval hnorm hne hsvc hdev hsf
  have hrun1 : (update_sheet_with_excel noFail (some D) dev fid now ⟨hdr :: data⟩).2
      = ⟨hdr :: (data.filter (fun r => !matchRow devCol sfCol dev fid r)
          ++ mkNewRows (applyServiceCols D2 fid now dev) hdr)⟩ := by
    rw [h1]
    simp [List.cons_append]
  have h2 := updateBody_char D D1 D2 msgs hdr
    (data.filter (fun r => !matchRow devCol sfCol dev fid r)
      ++ mkNewRows (applyServiceCols D2 fid now dev) hdr)
    dev fid now devCol sfCol hval hnorm hne hsvc hdev hsf
  have hff : (data.filter (fun r => !matchRow devCol sfCol dev fid r)).filter
      (fun r => !matchRow devCol sfCol dev fid r)
      = data.filter (fun r => !matchRow devCol sfCol dev fid r) :=
    List.filter_eq_self.mpr (fun r hr => (List.mem_filter.mp hr).2)
  have hfn : (mkNewRows (applyServiceCols D2 fid now dev) hdr).filter
      (fun r => !matchRow devCol sfCol dev fid r) = [] :=
    List.filter_eq_nil_iff.mpr (fun r hr => by simp [hmatch r hr])
  constructor
  · rw [hrun1, h2]
    rw [List.filter_append, hff, hfn, List.append_nil]
  · intro s hs
    rw [List.filter_append]
    have hz : (data.filter (fun r => !matchRow devCol sfCol dev fid r)).filter
        (fun r => matchRow devCol sfCol dev fid r && (r.getD idCol "" == s)) = [] := by
      apply List.filter_eq_nil_iff.mpr
      intro r hr
      have hk := (List.mem_filter.mp hr).2
      simp only [Bool.not_eq_eq_eq_not, Bool.not_true] at hk
      simp [Bool.eq_false_iff.mp (by simpa using hk)]
    have hcong : (mkNewRows (applyServiceCols D2 fid now dev) hdr).filter
        (fun r => matchRow devCol sfCol dev fid r && (r.getD idCol "" == s))
        = (mkNewRows (applyServiceCols D2 fid now dev) hdr).filter
            (fun r => r.getD idCol "" == s) := by
      apply List.filter_congr
      intro r hr
      rw [hmatch r hr, Bool.true_and]
    rw [hz, List.nil_append, hcong]
    rw [← List.countP_eq_length_filter]
    have hcp : (List.countP (fun r => r.getD idCol "" == s)
          (mkNewRows (applyServiceCols D2 fid now dev) hdr))
        = List.countP (fun x => x == s)
            ((mkNewRows (applyServiceCols D2 fid now dev) hdr).map (fun r => r.getD idCol "")) := by
      rw [List.countP_map]
      rfl
    rw [hcp]
    exact List.count_eq_one_of_mem hnd hs

/-- C3 (amended): when the store header carries all provenance columns, a
reconciliation call by one owner — with a dataset or deletion-only — leaves
every row of a different owner in the store.  (When the header lacks
provenance columns the reconciler clears the whole sheet first; see the
counterexample.) -/
theorem C3_amended_scoping
    (D D1 D2 : Df) (msgs : List String) (hdr : List String)
    (data : List (List String)) (dev fid now : String) (devCol sfCol : Nat)
    (hval : validate_dataframe D = .ok ((true, msgs), D1))
    (hnorm : normalize_dataframe D1 dev now = .ok D2)
    (hne : hdr ≠ []) (hsvc : SERVICE_COLUMNS.all hdr.contains = true)
    (hdev : listIndex "developer_telegram_id" hdr = some devCol)
    (hsf : listIndex "source_file_id" hdr = some sfCol)
    (r : List String) (hr : r ∈ data) (hown : r.getD devCol "" ≠ dev) :
    r ∈ (update_sheet_with_excel noFail (some D) dev fid now ⟨hdr :: data⟩).2.rows
    ∧ r ∈ (update_sheet_with_excel noFail Option.none dev fid now ⟨hdr :: data⟩).2.rows := by
  have hm : matchRow devCol sfCol dev fid r = false := by
    rw [matchRow]
    have hb : (r.getD devCol "" == dev) = false := beq_eq_false_iff_ne.mpr hown
    rw [hb, Bool.and_false, Bool.false_and]
  have hmem : r ∈ data.filter (fun x => !matchRow devCol sfCol dev fid x) :=
    List.mem_filter.mpr ⟨hr, by simp [hm]⟩
  constructor
  · rw [updateBody_char D D1 D2 msgs hdr data dev fid now devCol sfCol
      hval hnorm hne hsvc hdev hsf]
    show r ∈ (hdr :: data.filter (fun x => !matchRow devCol sfCol dev fid x))
        ++ mkNewRows (applyServiceCols D2 fid now dev) hdr
    exact List.mem_append_left _ (List.mem_cons_of_mem _ hmem)
  · rw [updateDelete_char hdr data dev fid now devCol sfCol hne hdev hsf]
    show r ∈ hdr :: data.filter (fun x => !matchRow devCol sfCol dev fid x)
    exact List.mem_cons_of_mem _ hmem

/-- C5 (amended): no exception ever escapes `update_sheet_with_excel`: for
every failure injection, store state and input the call returns a structured
`(count, errors)` result.  Header-sync and append failures surface as
`(0, [error_message])`, but delete failures are swallowed inside
`_delete_rows_batch` and the call proceeds to append (see the
counterexample, where a delete failure yields `(1, [])`). -/
theorem C5_amended_no_escape (fs : FailSpec) (excel : Option Df)
    (dev fid now : String) (ws : Ws) :
    (update_sheet_with_excel fs excel dev fid now ws).1.isOk = true := by
  rw [update_sheet_with_excel.eq_def]
  split
  next => split <;> rfl
  next df2 heq => split <;> rfl

end ReconcilerOpaque

/-! ### Concrete stores and datasets for evaluation -/

deriving instance DecidableEq for Except

/-- A valid single-listing upload (`internal_id = "x1"`). -/
def exD : Df := ⟨["internal_id", "address", "price", "area_total"],
  [[.str "x1", .str "Addr", .int 5000000, .int 50]]⟩

/-- `exD` after the validator's type coercion. -/
def exD1 : Df := ⟨["internal_id", "address", "price", "area_total"],
  [[.str "x1", .str "Addr", .float 5000000 0, .float 50 0]]⟩

/-- `exD1` after normalization for owner `"7"` at time `"T0"`. -/
def exD2 : Df := ⟨["developer_telegram_id", "creation_date", "internal_id", "address",
  "price", "area_total"],
  [[.str "7", .str "T0", .str "x1", .str "Addr", .str "5000000.0", .str "50.0"]]⟩

/-- A store header with the provenance columns present. -/
def exHdr : List String := SERVICE_COLUMNS ++ ["internal_id", "address", "price", "area_total"]

/-- Owner 7's row from another file `f2` whose listing id `x9` is absent from
the new upload. -/
def c1Row : List String := ["7", "f2", "T9", "T9", "x9", "Old addr", "1.0", "2.0"]

/-- Owner 7's row from another file `f2` with the same listing id `x1` as the
new upload. -/
def c2Row : List String := ["7", "f2", "T9", "T9", "x1", "Old addr", "1.0", "2.0"]

/-- A legacy header lacking two provenance columns, and another owner's row. -/
def c3Hdr : List String := ["developer_telegram_id", "source_file_id", "internal_id"]

def c3Row : List String := ["8", "g1", "z1"]

/-- A different owner's row in a well-formed store. -/
def c3KeepRow : List String := ["8", "f9", "T9", "T9", "z1", "Other addr", "1.0", "2.0"]

/-- Failure injection: both delete primitives raise. -/
def fsDel : FailSpec :=
  ⟨Option.none, Option.none, Option.none, Option.none, some "APIError", some "APIError",
   Option.none⟩

/-- Owner 7's row from the same file `f1` (so it is marked for deletion). -/
def c5Row : List String := ["7", "f1", "T9", "T9", "x1", "Old addr", "1.0", "2.0"]

/-- A dataset missing only the required `internal_id` column. -/
def c4D : Df := ⟨["address", "price", "area_total"], [[.str "Addr", .int 5000000, .int 50]]⟩

/-- C1 (counterexample): the stored row `(owner 7, file f2, listing x9)` is
*superseded* in the claim's sense — its listing id is not in the new upload's
id set `["x1"]` — yet reconciliation leaves it in the store: the claimed
"deleted exactly" set is wrong. -/
theorem C1_counterexample :
    claimSuperseded 0 1 4 "7" "f1" ["x1"] c1Row = true
      ∧ c1Row ∈ (update_sheet_with_excel noFail (some exD) "7" "f1" "T0"
          ⟨[exHdr, c1Row]⟩).2.rows := by
  constructor
  · decide
  · decide

/-- C1 (witness): the amended characterization applied to a concrete store. -/
theorem C1_amended_delete_set_witness :
    update_sheet_with_excel noFail (some exD) "7" "f1" "T0" ⟨exHdr :: [c1Row]⟩
      = (.ok ((mkNewRows (applyServiceCols exD2 "f1" "T0" "7") exHdr).length, []),
         ⟨(exHdr :: [c1Row].filter (fun r => !matchRow 0 1 "7" "f1" r))
           ++ mkNewRows (applyServiceCols exD2 "f1" "T0" "7") exHdr⟩) :=
  C1_amended_delete_set exD exD1 exD2 [] exHdr [c1Row] "7" "f1" "T0" 0 1
    (by decide) (by decide) (by decide) (by decide) (by decide) (by decide)

/-- C2 (counterexample): starting from a store holding owner 7's listing `x1`
from another file `f2`, running reconcile twice with the same dataset and
file id `f1` leaves TWO rows with `listing_id = "x1"` for owner 7 — not
"exactly one row per listing_id of D for that owner". -/
theorem C2_counterexample :
    (((update_sheet_with_excel noFail (some exD) "7" "f1" "T0"
        (update_sheet_with_excel noFail (some exD) "7" "f1" "T0"
          ⟨[exHdr, c2Row]⟩).2).2.rows.drop 1).filter
      (fun r => (r.getD 0 "" == "7") && (r.getD 4 "" == "x1"))).length = 2 := by
  decide

/-- C2 (witness): the amended idempotence statement at a concrete store. -/
theorem C2_amended_idempotent_witness :
    (update_sheet_with_excel noFail (some exD) "7" "f1" "T0"
        (update_sheet_with_excel noFail (some exD) "7" "f1" "T0" ⟨exHdr :: [c2Row]⟩).2).2
      = ⟨(exHdr :: [c2Row].filter (fun r => !matchRow 0 1 "7" "f1" r))
          ++ mkNewRows (applyServiceCols exD2 "f1" "T0" "7") exHdr⟩
    ∧ ∀ s ∈ (mkNewRows (applyServiceCols exD2 "f1" "T0" "7") exHdr).map (fun r => r.getD 4 ""),
        ((([c2Row].filter (fun r => !matchRow 0 1 "7" "f1" r))
            ++ mkNewRows (applyServiceCols exD2 "f1" "T0" "7") exHdr).filter
          (fun r => matchRow 0 1 "7" "f1" r && (r.getD 4 "" == s))).length = 1 :=
  C2_amended_idempotent exD exD1 exD2 [] exHdr [c2Row] "7" "f1" "T0" 0 1 4
    (by decide) (by decide) (by decide) (by decide) (by decide) (by decide) (by decide)
    (by decide)

/-- C3 (counterexample): on a store whose header lacks two provenance
columns, owner 7's reconciliation clears the sheet, destroying owner 8's row
— "rows belonging to a different owner are never deleted" fails there. -/
theorem C3_counterexample :
    c3Row.getD 0 "" ≠ "7"
      ∧ c3Row ∉ (update_sheet_with_excel noFail (some exD) "7" "f1" "T0"
          ⟨[c3Hdr, c3Row]⟩).2.rows := by
  constructor
  · decide
  · decide

/-- C3 (witness): on a well-formed store another owner's row survives both
the dataset call and the deletion-only call. -/
theorem C3_amended_scoping_witness :
    c3KeepRow ∈ (update_sheet_with_excel noFail (some exD) "7" "f1" "T0"
        ⟨exHdr :: [c3KeepRow]⟩).2.rows
    ∧ c3KeepRow ∈ (update_sheet_with_excel noFail Option.none "7" "f1" "T0"
        ⟨exHdr :: [c3KeepRow]⟩).2.rows :=
  C3_amended_scoping exD exD1 exD2 [] exHdr [c3KeepRow] "7" "f1" "T0" 0 1
    (by decide) (by decide) (by decide) (by decide) (by decide) (by decide)
    c3KeepRow (by decide) (by decide)

/-- C4: the claim is right and the code wrong — for a dataset missing the
required `internal_id` column, `_validate_required_fields` does build the
proper error message, but `_validate_hierarchy` accesses `df["internal_id"]`
unguarded, so `validate_dataframe` raises KeyError instead of returning
`ok=false`. -/
theorem C4_missing_internal_id_raises :
    validate_dataframe c4D = .error "KeyError: \x27internal_id\x27"
      ∧ requiredFieldErrors c4D = ["Отсутствует обязательная колонка: internal_id"] := by
  constructor
  · decide
  · decide

/-- C5 (counterexample): with both delete primitives raising, the reconcile
call swallows the exception inside `_delete_rows_batch`, proceeds to append,
and returns `(1, [])` — not the claimed `(0, [error_message])`; the
superseded row even survives. -/
theorem C5_counterexample :
    (update_sheet_with_excel fsDel (some exD) "7" "f1" "T0" ⟨[exHdr, c5Row]⟩).1
        = .ok (1, [])
      ∧ c5Row ∈ (update_sheet_with_excel fsDel (some exD) "7" "f1" "T0"
          ⟨[exHdr, c5Row]⟩).2.rows := by
  constructor
  · decide
  · decide

/-! ### C6/C7: the normalizer -/

/-- C6 (counterexample): `normalize_dataframe` runs `astype(str)` before
`safe_str`, so a NaN cell becomes the literal string `"nan"`, not the empty
string the claim requires. -/
theorem C6_counterexample :
    normalize_dataframe ⟨["a"], [[Value.nan]]⟩ "7" "T0"
        = .ok ⟨["developer_telegram_id", "creation_date", "a"],
               [[.str "7", .str "T0", .str "nan"]]⟩
      ∧ normalizeCell Value.nan = "nan"
      ∧ "nan" ≠ "" := by
  refine ⟨by decide, by decide, by decide⟩

/-- C6 (amended): the normalizer's per-cell canonical form is the stripped
Python string rendering (`astype(str)` then `strip`), so NaN → `"nan"`,
`True` → `"True"`, `2.0` → `"2.0"`; the canonical mapping the claim lists
(null → `""`, bool → `"1"`/`"0"`, integral float → no trailing `.0`,
datetime → ISO-8601, string → stripped) is exactly what `safe_str` alone
implements on raw values. -/
theorem C6_amended_normalize_cells :
    (∀ v, normalizeCell v = pyStrip (pyStr v))
    ∧ safe_str Value.nan = ""
    ∧ safe_str Value.none = ""
    ∧ safe_str (Value.bool true) = "1"
    ∧ safe_str (Value.bool false) = "0"
    ∧ safe_str (Value.float 20 1) = "2"
    ∧ safe_str (Value.float 25 1) = "2.5"
    ∧ (∀ y mo d h mi s, safe_str (Value.datetime y mo d h mi s) = dtIso y mo d h mi s)
    ∧ (∀ s, safe_str (Value.str s) = pyStrip s)
    ∧ normalizeCell (Value.bool true) = "True"
    ∧ normalizeCell (Value.float 20 1) = "2.0" := by
  refine ⟨fun v => rfl, rfl, rfl, rfl, rfl, by decide, by decide,
    fun y mo d h mi s => rfl, fun s => rfl, by decide, by decide⟩

/-- C7 (counterexample): normalizing a normalized dataset does not yield the
identical dataset — the second `insert` of `developer_telegram_id` raises. -/
theorem C7_counterexample :
    (normalize_dataframe ⟨["a"], [[Value.str "x"]]⟩ "7" "T0").bind
        (fun d => normalize_dataframe d "7" "T0")
      = .error "cannot insert developer_telegram_id, already exists" := by
  decide

/-- C7 (amended): the per-cell canonicalization used by `normalize_dataframe`
is idempotent — re-canonicalizing a canonical row reproduces it exactly; the
full `normalize_dataframe` is not re-runnable because it raises on the
already-present provenance columns (see the counterexample). -/
theorem C7_amended_cell_idempotent : ∀ (row : List Value),
    (row.map (fun v => Value.str (normalizeCell v))).map normalizeCell
      = row.map normalizeCell := by
  intro row
  induction row with
  | nil => rfl
  | cons v t ih => simp [normalizeCell_idem, ih]

/-! ### Counting machinery for the feed tree -/

@[simp] theorem isTag_elem (t t2 : String) (a : List (String × String)) (ch : List Xml) :
    isTag t (Xml.elem t2 a ch) = decide (t2 = t) := rfl

@[simp] theorem isTag_text (t s : String) : isTag t (Xml.text s) = false := rfl

@[simp] theorem isTag_textElem (t t2 s : String) :
    isTag t (textElem t2 s) = decide (t2 = t) := rfl

@[simp] theorem isTag_locationElem (t : String) (r : FeedRow) :
    isTag t (locationElem r) = decide ("location" = t) := rfl

@[simp] theorem isTag_priceElem (t : String) (r : FeedRow) :
    isTag t (priceElem r) = decide ("price" = t) := rfl

@[simp] theorem isTag_areaElem (t tag col : String) (r : FeedRow) :
    isTag t (areaElem tag col r) = decide (tag = t) := rfl

@[simp] theorem cntL_nil (t : String) : cntL t [] = 0 := rfl

@[simp] theorem cntL_cons (t : String) (x : Xml) (l : List Xml) :
    cntL t (x :: l) = (if isTag t x then 1 else 0) + cntL t l := by
  by_cases h : isTag t x <;> simp [cntL, List.filter_cons, h, Nat.add_comm]

@[simp] theorem cntL_append (t : String) (l1 l2 : List Xml) :
    cntL t (l1 ++ l2) = cntL t l1 + cntL t l2 := by
  simp [cntL, List.filter_append]

@[simp] theorem cntL_opt (t : String) (c : Bool) (x : Xml) :
    cntL t (optElem c x) = if c then (if isTag t x then 1 else 0) else 0 := by
  cases c <;> simp [optElem]

theorem cntL_const (t : String) (l : List Xml) (b : Bool)
    (h : ∀ x ∈ l, isTag t x = b) : cntL t l = if b then l.length else 0 := by
  induction l with
  | nil => cases b <;> simp
  | cons x xs ih =>
      rw [cntL_cons, h x (by simp), ih (fun y hy => h y (by simp [hy]))]
      cases b <;> simp [Nat.add_comm]

theorem mem_imagesOf (r : FeedRow) (x : Xml) (hx : x ∈ imagesOf r) :
    ∃ s, x = textElem "image" s := by
  rw [imagesOf] at hx
  by_cases hc : notnaAt r "image_urls"
  · rw [if_pos hc] at hx
    rcases List.mem_filterMap.mp hx with ⟨u, _, hequ⟩
    by_cases hs : pyStrip u ≠ ""
    · rw [if_pos hs] at hequ
      cases hequ
      exact ⟨pyStrip u, rfl⟩
    · rw [if_neg hs] at hequ
      cases hequ
  · rw [if_neg hc] at hx
    cases hx

@[simp] theorem cntL_imagesOf (t : String) (r : FeedRow) :
    cntL t (imagesOf r) = if "image" = t then (imagesOf r).length else 0 := by
  have h := cntL_const t (imagesOf r) (decide ("image" = t)) (fun x hx => by
    rcases mem_imagesOf r x hx with ⟨s, rfl⟩
    rfl)
  simpa using h

@[simp] theorem findL_nil (t : String) : findL t [] = Option.none := rfl

@[simp] theorem findL_cons (t : String) (x : Xml) (l : List Xml) :
    findL t (x :: l) = if isTag t x then some x else findL t l := by
  by_cases h : isTag t x
  · rw [if_pos h]
    exact List.find?_cons_of_pos _ h
  · rw [if_neg h]
    exact List.find?_cons_of_neg _ h

@[simp] theorem findL_append (t : String) (l1 l2 : List Xml) :
    findL t (l1 ++ l2) = (findL t l1).or (findL t l2) := by
  simp [findL, List.find?_append]

@[simp] theorem findL_opt (t : String) (c : Bool) (x : Xml) :
    findL t (optElem c x) = if c then (if isTag t x then some x else Option.none)
      else Option.none := by
  cases c <;> simp [optElem]

theorem findL_imagesOf_ne (t : String) (r : FeedRow) (h : ¬("image" = t)) :
    findL t (imagesOf r) = Option.none := by
  rw [findL, List.find?_eq_none]
  intro x hx
  rcases mem_imagesOf r x hx with ⟨s, rfl⟩
  simp [h]

/-! ### C8/C9/C10: the feed generator -/

/-- A row that carries `area_kitchen` as a present but empty string. -/
def c8Row : FeedRow := [("internal_id", Value.str "x"), ("area_kitchen", Value.str "")]

/-- C8 (counterexample): emission is guarded by `pd.notna` only, and
`notna("") = True` — a present empty-string `area_kitchen` cell produces a
`kitchen-space` element, refuting "only if present and non-empty … never an
empty element". -/
theorem C8_counterexample :
    getCell c8Row "area_kitchen" = Value.str ""
      ∧ countTag "kitchen-space" (addOffer c8Row) = 1 := by
  constructor
  · decide
  · decide

/-- The optional scalar fields of `_add_offer`: source column ↦ element tag. -/
def offerFieldTags : List (String × String) :=
  [("creation_date", "creation-date"), ("price", "price"), ("price_sale", "price-sale"),
   ("area_total", "area"), ("area_living", "living-space"), ("area_kitchen", "kitchen-space"),
   ("floor", "floor"), ("floors_total", "floors-total"), ("building_name", "building-name"),
   ("built_year", "built-year"), ("section", "section"),
   ("construction_type", "construction-type"), ("elevator_count", "elevator-count"),
   ("number", "apartment-number"), ("rooms", "rooms"), ("ceiling_height", "ceiling-height"),
   ("renovation_type", "renovation-type"), ("balcony_type", "balcony-type"),
   ("has_parking", "has-parking"), ("windows_view", "window-view"),
   ("description", "description"), ("mortgage_available", "mortgage-available"),
   ("initial_payment", "initial-payment"), ("developer_name", "developer-name")]

/-- C8 (amended): every optional field is emitted iff its cell is present and
non-null in the pandas sense (`pd.notna`) — an absent or NaN field produces
no element (in particular a row lacking `area_kitchen` has no `kitchen-space`
element), but a present empty string does produce an element; `image`
elements correspond exactly to the non-empty trimmed URL segments. -/
theorem C8_amended_sparse_emission : ∀ (r : FeedRow),
    (∀ p ∈ offerFieldTags, countTag p.2 (addOffer r) = if notnaAt r p.1 then 1 else 0)
    ∧ countTag "image" (addOffer r) = (imagesOf r).length := by
  intro r
  constructor
  · intro p hp
    fin_cases hp <;> simp [countTag, addOffer]
  · simp [countTag, addOffer]

/-- C8 (witness): a row lacking `area_kitchen` yields no `kitchen-space`
element. -/
theorem C8_amended_sparse_emission_witness :
    countTag "kitchen-space" (addOffer [("internal_id", Value.str "x")])
      = if notnaAt [("internal_id", Value.str "x")] "area_kitchen" then 1 else 0 :=
  (C8_amended_sparse_emission [("internal_id", Value.str "x")]).1
    ("area_kitchen", "kitchen-space") (by decide)

def c9Row : FeedRow := [("internal_id", Value.str "x")]

set_option maxRecDepth 4000

/-- C9 (counterexample): two invocations of feed generation on the same rows
at different clock readings produce different documents — the
`generation-date` element embeds the wall-clock time, so output is not
byte-for-byte identical across invocations. -/
theorem C9_counterexample :
    (generate_feed "2024-01-01T00:00:00" [c9Row] Option.none).toOption
      ≠ (generate_feed "2024-01-01T00:00:01" [c9Row] Option.none).toOption := by
  decide

/-- C9 (amended): generation is deterministic up to the clock: the
empty/error/document outcome is independent of the clock reading, and the
feed trees of two invocations differ only in the text of the leading
`generation-date` element (substituting it maps one tree to the other);
byte-for-byte identity holds only at a fixed clock reading. -/
theorem C9_amended_clock_isolation :
    (∀ n1 n2 (data : List FeedRow) dev,
        (generate_feed n1 data dev).isOk = (generate_feed n2 data dev).isOk)
    ∧ (∀ n1 n2 cols rows, setGenDate n2 (feedRoot n1 cols rows) = feedRoot n2 cols rows) := by
  constructor
  · intro n1 n2 data dev
    cases dev with
    | none => by_cases h1 : data.isEmpty <;> simp [generate_feed, h1, Except.isOk, Except.toBool]
    | some d =>
        by_cases h1 : data.isEmpty
        · simp [generate_feed, h1, Except.isOk, Except.toBool]
        · by_cases h2 : d = ""
          · simp [generate_feed, h1, h2, Except.isOk, Except.toBool]
          · by_cases h3 : "developer_telegram_id" ∈ unionKeys data
            · by_cases h4 : (data.filter
                  (fun r => pyStr (getCell r "developer_telegram_id") == d)).isEmpty
              · simp [generate_feed, h1, h2, h3, h4, Except.isOk, Except.toBool]
              · simp [generate_feed, h1, h2, h3, h4, Except.isOk, Except.toBool]
            · simp [generate_feed, h1, h2, h3, Except.isOk, Except.toBool]
  · intro n1 n2 cols rows
    simp [feedRoot, setGenDate]

/-- C10: every offer unconditionally contains `type`, `property-type`,
`category` and a `location` whose first child is `country` = `Россия`; for a
row with the source columns absent the texts default to `продажа`,
`квартира` and `жилая`. -/
theorem C10_unconditional_elements : ∀ (r : FeedRow),
    countTag "type" (addOffer r) = 1
    ∧ countTag "property-type" (addOffer r) = 1
    ∧ countTag "category" (addOffer r) = 1
    ∧ countTag "location" (addOffer r) = 1
    ∧ findTag "location" (addOffer r) = some (locationElem r)
    ∧ findTag "country" (locationElem r) = some (textElem "country" "Россия")
    ∧ (List.lookup "category" r = Option.none →
        findTag "type" (addOffer r) = some (textElem "type" "продажа")
        ∧ findTag "category" (addOffer r) = some (textElem "category" "жилая"))
    ∧ (List.lookup "property_type" r = Option.none →
        findTag "property-type" (addOffer r) = some (textElem "property-type" "квартира")) := by
  intro r
  refine ⟨by simp [countTag, addOffer], by simp [countTag, addOffer],
    by simp [countTag, addOffer], by simp [countTag, addOffer],
    by simp [findTag, addOffer], by simp [findTag, locationElem],
    fun h => ⟨by simp [findTag, addOffer, rowGetStrD, h],
      by simp [findTag, addOffer, rowGetStrD, h]⟩,
    fun h => by simp [findTag, addOffer, rowGetStrD, h]⟩

/-- C10 (witness): the fully-absent row gets the default element texts. -/
theorem C10_unconditional_elements_witness :
    countTag "type" (addOffer ([] : FeedRow)) = 1
    ∧ findTag "type" (addOffer ([] : FeedRow)) = some (textElem "type" "продажа")
    ∧ findTag "property-type" (addOffer ([] : FeedRow))
        = some (textElem "property-type" "квартира")
    ∧ findTag "category" (addOffer ([] : FeedRow)) = some (textElem "category" "жилая")
    ∧ findTag "country" (locationElem ([] : FeedRow))
        = some (textElem "country" "Россия") := by
  have h := C10_unconditional_elements []
  exact ⟨h.1, (h.2.2.2.2.2.2.1 rfl).1, h.2.2.2.2.2.2.2 rfl,
    (h.2.2.2.2.2.2.1 rfl).2, h.2.2.2.2.2.1⟩

end Nova
